import Mathlib

/-!
# keyring: Secret-Service and Credential-Manager providers

A shallow embedding of `keyring_linux.go` (the `SsProvider` talking to the
freedesktop Secret Service over D-Bus) and `keyring_windows.go` (the
`windowsProvider` talking to the generic-credential store through `wincred`).

The remote peer is not part of the program.  It is represented by a record of
handlers over an arbitrary world state `σ`; each handler stands for one
`Call(iface + method, 0, args...)` together with the `.Store(...)` that decodes
its reply, and answers either with the decoded values or with an error, in
which case nothing is stored into the destination variables.  Every operation
returns its Go result, the new world and the list of remote calls it issued,
each with the reply it received.
-/

namespace Keyring

/-! ## Go values -/

/-- A Go `string`: an immutable sequence of bytes. -/
structure GoString where
  bytes : List UInt8
deriving DecidableEq, Repr

namespace GoString

/-- A Go string literal, UTF-8 encoded as the Go compiler stores it. -/
def lit (s : String) : GoString := ⟨s.toUTF8.data.toList⟩

instance : Append GoString := ⟨fun a b => ⟨a.bytes ++ b.bytes⟩⟩

/-- The conversion `[]byte(s)`: the bytes of the string. -/
def toBytes (s : GoString) : List UInt8 := s.bytes

/-- The conversion `string(b)`: the string holding these bytes. -/
def ofBytes (b : List UInt8) : GoString := ⟨b⟩

end GoString

open GoString (lit)

/-- The Go type `dbus.ObjectPath`, a string. -/
abbrev ObjectPath := GoString

/-- An error value handed back by a library (`go.dbus` or `wincred`). -/
structure LibError where
  msg : GoString
deriving DecidableEq, Repr

/-- The Go `error` values this package returns: `sentinel` is a package-level
error variable, known by its name; `lib` is an error passed through from a
library unchanged; `Errorf` is a fresh error built by `fmt.Errorf` with the
given text. -/
inductive GoError where
  | sentinel (name : GoString)
  | lib (e : LibError)
  | Errorf (msg : GoString)
deriving DecidableEq, Repr

/-- Modelled from the spec: the package variable `ErrNotFound`, which the two
source files use and do not declare; it is the `NotFound` of the error
taxonomy, "no credential matches the given (service, username)". -/
def ErrNotFound : GoError := .sentinel (lit "ErrNotFound")

/-- A Go map from string to string written as a literal, in source order. -/
abbrev Attrs := List (GoString × GoString)

/-- The values this package wraps with `dbus.MakeVariant`. -/
inductive Variant where
  | str (s : GoString)
  | dict (m : Attrs)
deriving DecidableEq, Repr

/-- The Go type `map[string]dbus.Variant` written as a literal. -/
abbrev Properties := List (GoString × Variant)

/-! ## Constants of `keyring_linux.go` -/

def ssServiceName : GoString := lit "org.freedesktop.secrets"
def ssServicePath : ObjectPath := lit "/org/freedesktop/secrets"
def ssCollectionPath : ObjectPath := lit "/org/freedesktop/secrets/collection/Default"

/-- The record `ssSecret`, field order as in the source. -/
structure ssSecret where
  Session : ObjectPath
  Parameters : List UInt8
  Value : List UInt8
  ContentType : GoString
deriving DecidableEq, Repr

/-- The zero value of `ssSecret` (what `var secret ssSecret` holds). -/
def ssSecret.zero : ssSecret := ⟨lit "", [], [], lit ""⟩

/-- The function `newSSSecret`. -/
def newSSSecret (session : ObjectPath) (secret : GoString) : ssSecret :=
  { ContentType := lit "text/plain; charset=utf8"
    Parameters := []
    Session := session
    Value := secret.toBytes }

/-- A `*dbus.Object`: a destination name and an object path on the connection. -/
structure Object where
  dest : GoString
  path : ObjectPath
deriving DecidableEq, Repr

/-- The method `(*dbus.Object).Path`. -/
def Object.Path (o : Object) : ObjectPath := o.path

deriving instance DecidableEq for Except

/-! ## The remote peer -/

/-- One remote call (or diagnostic print) issued by the provider, with the
reply it received. -/
inductive Event where
  | OpenSession (obj : Object) (algorithm : GoString) (input : Variant)
      (reply : Except LibError (Variant × ObjectPath))
  | Unlock (obj : Object) (objects : List ObjectPath)
      (reply : Except LibError (List ObjectPath × ObjectPath))
  | Prompt (obj : Object) (windowId : GoString) (err : Option LibError)
  | SearchItems (obj : Object) (attributes : Attrs)
      (reply : Except LibError (List ObjectPath × List ObjectPath))
  | GetSecret (obj : Object) (session : ObjectPath) (reply : Except LibError ssSecret)
  | CreateItem (obj : Object) (properties : Properties) (secret : ssSecret) (replace : Bool)
      (reply : Except LibError (ObjectPath × ObjectPath))
  | Close (obj : Object) (err : Option LibError)
  | Println (tag : GoString) (secret : ssSecret)
  | Stderr (format : GoString) (err : Option LibError)
deriving DecidableEq

/-- The D-Bus connection seen from the program: one handler per Secret-Service
method, acting on the world state `σ`. -/
structure Conn (σ : Type) where
  OpenSession : Object → GoString → Variant → σ → Except LibError (Variant × ObjectPath) × σ
  Unlock : Object → List ObjectPath → σ → Except LibError (List ObjectPath × ObjectPath) × σ
  Prompt : Object → GoString → σ → Option LibError × σ
  SearchItems : Object → Attrs → σ → Except LibError (List ObjectPath × List ObjectPath) × σ
  GetSecret : Object → ObjectPath → σ → Except LibError ssSecret × σ
  CreateItem : Object → Properties → ssSecret → Bool → σ →
    Except LibError (ObjectPath × ObjectPath) × σ
  Close : Object → σ → Option LibError × σ

/-- What an operation leaves behind: its Go return value, the world after it,
and the calls it issued in order. -/
structure Outcome (σ : Type) (α : Type) where
  ret : α
  world : σ
  trace : List Event

/-- The effect of `call.Store(&dest)` on `dest`: a successful reply is stored,
a failed call leaves the old value in place. -/
def Store {α : Type} (reply : Except LibError α) (dest : α) : α :=
  match reply with
  | .ok v => v
  | .error _ => dest

/-- The struct `SsProvider`: the connection and the service object. -/
structure SsProvider (σ : Type) where
  Conn : Keyring.Conn σ
  srv : Object

namespace SsProvider

variable {σ : Type}

/-- The method `(*dbus.Conn).Object`. -/
def Object (_s : SsProvider σ) (dest : GoString) (path : ObjectPath) : Keyring.Object :=
  ⟨dest, path⟩

/-- The method `SsProvider.openSession`. -/
def openSession (s : SsProvider σ) (w : σ) : Outcome σ (Except GoError Keyring.Object) :=
  match s.Conn.OpenSession s.srv (lit "plain") (.str (lit "")) w with
  | (.error err, w1) =>
    ⟨.error (.lib err), w1, [.OpenSession s.srv (lit "plain") (.str (lit "")) (.error err)]⟩
  | (.ok (disregard, sessionPath), w1) =>
    ⟨.ok (s.Object ssServiceName sessionPath), w1,
      [.OpenSession s.srv (lit "plain") (.str (lit "")) (.ok (disregard, sessionPath))]⟩

/-- The method `SsProvider.unlock`. -/
def unlock (s : SsProvider σ) (p : ObjectPath) (w : σ) : Outcome σ (Option GoError) :=
  match s.Conn.Unlock s.srv [p] w with
  | (.error err, w1) =>
    ⟨some (.Errorf (lit "keyring/dbus: Unlock error: " ++ err.msg)), w1,
      [.Unlock s.srv [p] (.error err)]⟩
  | (.ok (unlocked, prompt), w1) =>
    if prompt = lit "/" then
      ⟨some (.Errorf (lit "keyring/dbus: Unexpected prompt of '/' returned")), w1,
        [.Unlock s.srv [p] (.ok (unlocked, prompt))]⟩
    else
      match s.Conn.Prompt (s.Object ssServiceName prompt) (lit "unlock") w1 with
      | (callErr, w2) =>
        ⟨callErr.map .lib, w2,
          [.Unlock s.srv [p] (.ok (unlocked, prompt)),
           .Prompt (s.Object ssServiceName prompt) (lit "unlock") callErr]⟩

/-- The closing `session.Call(ssSessionIface + "Close", 0)` shared by `Get` and
`Set`; its result is `call.Err`. -/
def closeSession (s : SsProvider σ) (session : Keyring.Object) (w : σ) :
    Outcome σ (Option GoError) :=
  match s.Conn.Close session w with
  | (callErr, w1) => ⟨callErr.map .lib, w1, [.Close session callErr]⟩

/-- One `s.Object(ssServiceName, r).Call(GetSecret, 0, session.Path()).Store(&secret)`
followed by `fmt.Println("GetSecret", secret)`. The value is `secret`
afterwards; the error `Store` returns is dropped. -/
def getSecret (s : SsProvider σ) (r : ObjectPath) (session : Keyring.Object)
    (secret : ssSecret) (w : σ) : Outcome σ ssSecret :=
  let call := s.Conn.GetSecret (s.Object ssServiceName r) session.Path w
  ⟨Store call.1 secret, call.2,
    [.GetSecret (s.Object ssServiceName r) session.Path call.1,
     .Println (lit "GetSecret") (Store call.1 secret)]⟩

/-- Lines 94-96 of `Get`: the `SearchItems` call on the default collection and
`Store(&unlocked, &locked)`. The value is the pair `(unlocked, locked)` as the
following lines read it; the error `Store` returns is assigned to `err` and
never read. -/
def searchItems (s : SsProvider σ) (search : Attrs) (w : σ) :
    Outcome σ (List ObjectPath × List ObjectPath) :=
  let collection := s.Object ssServiceName ssCollectionPath
  let call := s.Conn.SearchItems collection search w
  ⟨Store call.1 ([], []), call.2, [.SearchItems collection search call.1]⟩

/-- Lines 101-115 of `Get`: the two `for ... range` loops, each left by `break`
after its first round. The value is `secret` as line 121 reads it. -/
def fetch (s : SsProvider σ) (session : Keyring.Object) (unlocked locked : List ObjectPath)
    (w : σ) : Outcome σ ssSecret :=
  if unlocked.length = 0 then
    match locked with
    | r :: _ =>
      let r1 := s.unlock r w
      let r2 := s.getSecret r session ssSecret.zero r1.world
      ⟨r2.ret, r2.world, r1.trace ++ r2.trace⟩
    | [] => ⟨ssSecret.zero, w, []⟩
  else
    match unlocked with
    | r :: _ => s.getSecret r session ssSecret.zero w
    | [] => ⟨ssSecret.zero, w, []⟩

/-- The method `SsProvider.Get`. -/
def Get (s : SsProvider σ) (c u : GoString) (w : σ) : Outcome σ (GoString × Option GoError) :=
  let search : Attrs := [(lit "username", u), (lit "service", c)]
  match s.openSession w with
  | ⟨.error err, w1, t1⟩ => ⟨(lit "", some err), w1, t1⟩
  | ⟨.ok session, w1, t1⟩ =>
    let r2 := s.unlock ssCollectionPath w1
    let r3 := s.searchItems search r2.world
    if r3.ret.1.length = 0 ∧ r3.ret.2.length = 0 then
      ⟨(lit "", some ErrNotFound), r3.world, t1 ++ r2.trace ++ r3.trace⟩
    else
      let r4 := s.fetch session r3.ret.1 r3.ret.2 r3.world
      let r5 := s.closeSession session r4.world
      match r5.ret with
      | some callErr =>
        ⟨(lit "", some callErr), r5.world, t1 ++ r2.trace ++ r3.trace ++ r4.trace ++ r5.trace⟩
      | none =>
        ⟨(GoString.ofBytes r4.ret.Value, none), r5.world,
          t1 ++ r2.trace ++ r3.trace ++ r4.trace ++ r5.trace⟩

/-- Lines 143-149 of `Set`: the `CreateItem` call with `Store(&item, &prompt)`,
and the `Prompt` call issued when the returned prompt path is not "/". The
value is the error line 144 tests. -/
def createItem (s : SsProvider σ) (properties : Properties) (secret : ssSecret) (w : σ) :
    Outcome σ (Option LibError) :=
  let collection := s.Object ssServiceName ssCollectionPath
  -- the bool is "replace"
  match s.Conn.CreateItem collection properties secret true w with
  | (.error err, w1) =>
    ⟨some err, w1, [.CreateItem collection properties secret true (.error err)]⟩
  | (.ok (item, prompt), w1) =>
    if prompt ≠ lit "/" then
      match s.Conn.Prompt (s.Object ssServiceName prompt) (lit "unlock") w1 with
      | (callErr, w2) =>
        ⟨none, w2,
          [.CreateItem collection properties secret true (.ok (item, prompt)),
           .Prompt (s.Object ssServiceName prompt) (lit "unlock") callErr]⟩
    else
      ⟨none, w1, [.CreateItem collection properties secret true (.ok (item, prompt))]⟩

/-- The method `SsProvider.Set`. -/
def Set (s : SsProvider σ) (c u p : GoString) (w : σ) : Outcome σ (Option GoError) :=
  let properties : Properties :=
    [(lit "org.freedesktop.Secret.Item.Label", .str (u ++ lit " - " ++ c)),
     (lit "org.freedesktop.Secret.Item.Attributes",
       .dict [(lit "username", u), (lit "service", c)])]
  match s.openSession w with
  | ⟨.error err, w1, t1⟩ => ⟨some err, w1, t1⟩
  | ⟨.ok session, w1, t1⟩ =>
    let r2 := s.unlock ssCollectionPath w1
    let secret := newSSSecret session.Path p
    let r3 := s.createItem properties secret r2.world
    match r3.ret with
    | some err =>
      ⟨some (.Errorf (lit "keyring/dbus: CreateItem error: " ++ err.msg)), r3.world,
        t1 ++ r2.trace ++ r3.trace⟩
    | none =>
      let r4 := s.closeSession session r3.world
      ⟨r4.ret, r4.world, t1 ++ r2.trace ++ r3.trace ++ r4.trace⟩

end SsProvider

/-- The function `init` of `keyring_linux.go`. `SessionBus` is what
`dbus.SessionBus()` returns. The package variable `defaultProvider` is declared
outside the two source files; it is passed in as `init` finds it, and the value
is the variable as `init` leaves it (`none` is the nil interface: no provider
registered). The two messages go to `os.Stderr`; of the second only the format
string and the error are kept. -/
def init {σ : Type} (SessionBus : Except LibError (Conn σ))
    (defaultProvider : Option (SsProvider σ)) (w : σ) : Outcome σ (Option (SsProvider σ)) :=
  match SessionBus with
  | .error _ =>
    ⟨defaultProvider, w,
      [.Stderr (lit ("keyring/dbus: Error connecting to dbus session, " ++
        "not registering SecretService provider\n")) none]⟩
  | .ok conn =>
    let srv : Object := ⟨ssServiceName, ssServicePath⟩
    let p : SsProvider σ := ⟨conn, srv⟩
    -- Everything should implement dbus peer, so ping to make sure we have an object...
    match p.openSession w with
    | ⟨.error err, w1, t1⟩ =>
      ⟨defaultProvider, w1,
        t1 ++ [.Stderr (lit "Unable to open session%s%s: %s\n")
          (match err with
            | .lib e => some e
            | _ => none)]⟩
    | ⟨.ok _, w1, t1⟩ => ⟨some p, w1, t1⟩

/-! ## `keyring_windows.go` -/

/-- The fields of `wincred.GenericCredential` this package touches. -/
structure GenericCredential where
  TargetName : GoString
  CredentialBlob : List UInt8
deriving DecidableEq, Repr

/-- The function `wincred.NewGenericCredential`: an empty credential for the
given target name. -/
def NewGenericCredential (target : GoString) : GenericCredential := ⟨target, []⟩

/-- The native credential store seen from the program: the two `wincred`
calls, acting on the world state `σ`. -/
structure WinCred (σ : Type) where
  GetGenericCredential : GoString → σ → Except LibError GenericCredential × σ
  Write : GenericCredential → σ → Option LibError × σ

/-- The store key `fmt.Sprintf("%s::%s", Service, Username)`. -/
def targetName (Service Username : GoString) : GoString :=
  Service ++ lit "::" ++ Username

/-- The struct `windowsProvider`; it has no fields of its own, the `wincred`
calls it makes are those of `api`. -/
structure windowsProvider (σ : Type) where
  api : WinCred σ

namespace windowsProvider

variable {σ : Type}

/-- The method `windowsProvider.Get`. -/
def Get (p : windowsProvider σ) (Service Username : GoString) (w : σ) :
    (GoString × Option GoError) × σ :=
  match p.api.GetGenericCredential (targetName Service Username) w with
  | (.error err, w1) => ((lit "", some (.lib err)), w1)
  | (.ok cred, w1) => ((GoString.ofBytes cred.CredentialBlob, none), w1)

/-- The method `windowsProvider.Set`. -/
def Set (p : windowsProvider σ) (Service Username Password : GoString) (w : σ) :
    Option GoError × σ :=
  let cred := NewGenericCredential (targetName Service Username)
  let cred := { cred with CredentialBlob := Password.toBytes }
  match p.api.Write cred w with
  | (err, w1) => (err.map .lib, w1)

end windowsProvider

/-! ## A model of the generic-credential store -/

/-- The model credential store: the credentials it holds, at most one per
target name once written through `write`. -/
abbrev CredStore := List GenericCredential

/-- Reading a credential by target name; a missing one is the native
"not found" error. -/
def CredStore.read (st : CredStore) (target : GoString) : Except LibError GenericCredential :=
  match st.find? (fun cred => cred.TargetName = target) with
  | some cred => .ok cred
  | none => .error ⟨lit "Element not found."⟩

/-- Writing a credential creates it or replaces the one with its target name. -/
def CredStore.write (st : CredStore) (cred : GenericCredential) : CredStore :=
  cred :: st.filter (fun old => old.TargetName ≠ cred.TargetName)

/-- The model store as the `wincred` calls see it; every call that can
succeed does. -/
def credManager : WinCred CredStore where
  GetGenericCredential target st := (st.read target, st)
  Write cred st := (none, st.write cred)

/-- The provider `init` of `keyring_windows.go` registers, run on the model. -/
def modelWindowsProvider : windowsProvider CredStore := ⟨credManager⟩


/-! ## Reading a trace -/

/-- The method an event belongs to. -/
inductive Kind where
  | OpenSession | Unlock | Prompt | SearchItems | GetSecret | CreateItem | Close | Println
  | Stderr
deriving DecidableEq, Repr

namespace Event

/-- The method of an event. -/
def kind : Event → Kind
  | .OpenSession .. => .OpenSession
  | .Unlock .. => .Unlock
  | .Prompt .. => .Prompt
  | .SearchItems .. => .SearchItems
  | .GetSecret .. => .GetSecret
  | .CreateItem .. => .CreateItem
  | .Close .. => .Close
  | .Println .. => .Println
  | .Stderr .. => .Stderr

/-- Is the event an `OpenSession` call that succeeded? -/
def isOpened : Event → Bool
  | .OpenSession _ _ _ (.ok _) => true
  | _ => false

/-- Did the remote call of this event fail? Prints never fail. -/
def failed : Event → Bool
  | .OpenSession _ _ _ (.error _) => true
  | .Unlock _ _ (.error _) => true
  | .Prompt _ _ (some _) => true
  | .SearchItems _ _ (.error _) => true
  | .GetSecret _ _ (.error _) => true
  | .CreateItem _ _ _ _ (.error _) => true
  | .Close _ (some _) => true
  | _ => false

end Event

/-! ## A scripted test double -/

/-- A test double whose replies are fixed in advance, one per method. -/
structure Script where
  openSession : Except LibError (Variant × ObjectPath)
  unlock : Except LibError (List ObjectPath × ObjectPath)
  prompt : Option LibError
  searchItems : Except LibError (List ObjectPath × List ObjectPath)
  getSecret : Except LibError ssSecret
  createItem : Except LibError (ObjectPath × ObjectPath)
  close : Option LibError
deriving DecidableEq

/-- The connection that answers every call from the script. -/
def scripted : Conn Script where
  OpenSession _ _ _ w := (w.openSession, w)
  Unlock _ _ w := (w.unlock, w)
  Prompt _ _ w := (w.prompt, w)
  SearchItems _ _ w := (w.searchItems, w)
  GetSecret _ _ w := (w.getSecret, w)
  CreateItem _ _ _ _ w := (w.createItem, w)
  Close _ w := (w.close, w)

/-- The provider `init` builds on the scripted connection. -/
def scriptedProvider : SsProvider Script := ⟨scripted, ⟨ssServiceName, ssServicePath⟩⟩

/-- A script in which every call succeeds, no prompt is needed, and the search
finds one unlocked item holding the bytes of "pw". -/
def okScript : Script where
  openSession := .ok (.str (lit ""), lit "/s/1")
  unlock := .ok ([], lit "/")
  prompt := none
  searchItems := .ok ([lit "/i/1"], [])
  getSecret := .ok ⟨lit "/s/1", [], (lit "pw").toBytes, lit "text/plain"⟩
  createItem := .ok (lit "/i/1", lit "/")
  close := none

/-- As `okScript`, but the search finds nothing. -/
def notFoundScript : Script := { okScript with searchItems := .ok ([], []) }

/-- As `okScript`, but the search finds two locked items and no unlocked one. -/
def lockedScript : Script := { okScript with searchItems := .ok ([], [lit "/i/1", lit "/i/2"]) }

/-- As `okScript`, but Unlock answers with a prompt object to be waited for. -/
def promptScript : Script := { okScript with unlock := .ok ([], lit "/prompt/u1") }

/-- As `okScript`, but the Unlock call fails. -/
def unlockFailScript : Script := { okScript with unlock := .error ⟨lit "unlock refused"⟩ }

/-- As `okScript`, but the GetSecret call fails. -/
def getSecretFailScript : Script := { okScript with getSecret := .error ⟨lit "no such object"⟩ }

/-- As `okScript`, but the CreateItem call fails. -/
def createFailScript : Script := { okScript with createItem := .error ⟨lit "collection gone"⟩ }

/-- As `okScript`, but the session Close call fails. -/
def closeFailScript : Script := { okScript with close := some ⟨lit "connection closed"⟩ }

/-- As `okScript`, but the OpenSession call fails. -/
def openFailScript : Script := { okScript with openSession := .error ⟨lit "no such service"⟩ }

/-- The number of `OpenSession` calls in a trace that succeeded. -/
def opens (t : List Event) : Nat := t.countP Event.isOpened

/-- The number of session `Close` calls in a trace. -/
def closes (t : List Event) : Nat := t.countP (fun e => e.kind = .Close)

/-- The byte of the character ':' the store key is built with. -/
def colon : UInt8 := 58

/-! ## A model of the Secret Service -/

/-- An item of the default collection of the model service. -/
structure Item where
  id : Nat
  label : GoString
  attributes : Attrs
  secret : List UInt8
  contentType : GoString
deriving DecidableEq, Repr

/-- The item with a new label and secret. -/
def Item.overwrite (it : Item) (label : GoString) (secret : ssSecret) : Item :=
  { it with label := label, secret := secret.Value, contentType := secret.ContentType }

/-- The state of the model service: the items of the default collection, the
ids of those that are locked, the id the next new item gets, the number of
sessions opened so far and the sessions now open. -/
structure Service where
  items : List Item
  locked : List Nat
  next : Nat
  sessions : Nat
  openSessions : List ObjectPath
deriving DecidableEq, Repr

/-- The object path of the item with the given id: the collection path, "/i",
and one byte '1' per unit of the id. -/
def itemPath (id : Nat) : ObjectPath :=
  ssCollectionPath ++ lit "/i" ++ ⟨List.replicate id 49⟩

/-- The object path of the n-th session. -/
def sessionPath (n : Nat) : ObjectPath :=
  lit "/org/freedesktop/secrets/session/s" ++ ⟨List.replicate n 49⟩

/-- Every pair of `a` is a pair of `b`: an item with attributes `b` matches a
search for `a`. -/
def subsetOf (a b : Attrs) : Bool := a.all (fun kv => b.contains kv)

/-- The two maps hold the same pairs. -/
def sameAttrs (a b : Attrs) : Bool := subsetOf a b && subsetOf b a

/-- The attributes among the properties handed to CreateItem. -/
def attributesOf (properties : Properties) : Attrs :=
  match properties.lookup (lit "org.freedesktop.Secret.Item.Attributes") with
  | some (.dict m) => m
  | _ => []

/-- The label among the properties handed to CreateItem. -/
def labelOf (properties : Properties) : GoString :=
  match properties.lookup (lit "org.freedesktop.Secret.Item.Label") with
  | some (.str s) => s
  | _ => lit ""

namespace Service

/-- The model service with nothing stored. -/
def empty : Service := ⟨[], [], 0, 0, []⟩

/-- OpenSession: a new session is opened and its path handed back. -/
def openSession (st : Service) : ObjectPath × Service :=
  (sessionPath st.sessions,
    { st with sessions := st.sessions + 1
              openSessions := sessionPath st.sessions :: st.openSessions })

/-- Unlock: the listed items are unlocked, without a prompt. -/
def unlock (st : Service) (objects : List ObjectPath) : Service :=
  { st with locked := st.locked.filter (fun id => !objects.contains (itemPath id)) }

/-- SearchItems: the paths of the items whose attributes include the given
ones, the unlocked ones first, the locked ones second. -/
def search (st : Service) (attributes : Attrs) : List ObjectPath × List ObjectPath :=
  let found := st.items.filter (fun it => subsetOf attributes it.attributes)
  ((found.filter (fun it => !st.locked.contains it.id)).map (fun it => itemPath it.id),
   (found.filter (fun it => st.locked.contains it.id)).map (fun it => itemPath it.id))

/-- GetSecret: the secret of the item at the path, for the session; it fails
for a path that is no item and for a locked item. -/
def getSecret (st : Service) (item session : ObjectPath) : Except LibError ssSecret :=
  match st.items.find? (fun it => itemPath it.id = item) with
  | none => .error ⟨lit "org.freedesktop.Secret.Error.NoSuchObject"⟩
  | some it =>
    if st.locked.contains it.id then .error ⟨lit "org.freedesktop.Secret.Error.IsLocked"⟩
    else .ok ⟨session, [], it.secret, it.contentType⟩

/-- CreateItem: with `replace` set and an item with the same attributes
present, that item takes the new label and secret and is left unlocked;
otherwise a new unlocked item is added. The path of the item is handed back. -/
def createItem (st : Service) (properties : Properties) (secret : ssSecret) (replace : Bool) :
    ObjectPath × Service :=
  match (if replace then st.items.find? (fun it => sameAttrs (attributesOf properties) it.attributes)
         else none) with
  | some old =>
    (itemPath old.id,
      { st with
        items := st.items.map (fun it =>
          if it.id = old.id then it.overwrite (labelOf properties) secret else it)
        locked := st.locked.filter (fun id => id ≠ old.id) })
  | none =>
    (itemPath st.next,
      { st with
        items := st.items ++
          [⟨st.next, labelOf properties, attributesOf properties, secret.Value, secret.ContentType⟩]
        locked := st.locked.filter (fun id => id ≠ st.next)
        next := st.next + 1 })

/-- Close: the session is no longer open. -/
def close (st : Service) (session : ObjectPath) : Service :=
  { st with openSessions := st.openSessions.filter (fun s => s ≠ session) }

/-- The attributes `Set` gives an item: a username and a service. -/
def isCredential (a : Attrs) : Bool :=
  match a with
  | [(k1, _), (k2, _)] => k1 = lit "username" && k2 = lit "service"
  | _ => false

/-- The states the model service is run from: item ids are distinct and below
`next`, no two items have the same attribute list, and every item has the
attributes of a credential. The empty service is one, and `Get` and `Set` lead
from one to another. -/
def WellFormed (st : Service) : Prop :=
  (st.items.map Item.id).Nodup ∧ (∀ it ∈ st.items, it.id < st.next) ∧
    (st.items.map Item.attributes).Nodup ∧ ∀ it ∈ st.items, isCredential it.attributes = true

instance (st : Service) : Decidable st.WellFormed := by
  unfold WellFormed
  infer_instance

end Service

/-- The model service as the connection sees it. Every call succeeds, except
GetSecret for a path that is no item or for a locked item; no call asks for a
prompt. -/
def secretService : Conn Service where
  OpenSession _ _ _ st := (.ok (.str (lit ""), st.openSession.1), st.openSession.2)
  Unlock _ objects st := (.ok (objects, lit "/"), st.unlock objects)
  Prompt _ _ st := (none, st)
  SearchItems _ attributes st := (.ok (st.search attributes), st)
  GetSecret obj session st := (st.getSecret obj.path session, st)
  CreateItem _ properties secret replace st :=
    (.ok ((st.createItem properties secret replace).1, lit "/"),
      (st.createItem properties secret replace).2)
  Close obj st := (none, st.close obj.path)

/-- The provider `init` registers, run on the model service. -/
def modelProvider : SsProvider Service := ⟨secretService, ⟨ssServiceName, ssServicePath⟩⟩

/-- A well-formed model service holding one locked item for ("svc", "me"). -/
def lockedService : Service :=
  ⟨[⟨0, lit "me - svc", [(lit "username", lit "me"), (lit "service", lit "svc")],
      (lit "old").toBytes, lit "text/plain; charset=utf8"⟩], [0], 1, 0, []⟩

/-! ## What each step leaves in the trace -/

section Steps

variable {σ : Type}

/-- Every event of `openSession` is an OpenSession call. -/
theorem openSession_kinds (s : SsProvider σ) (w : σ) :
    ∀ e ∈ (s.openSession w).trace, e.kind = .OpenSession := by
  intro e he
  unfold SsProvider.openSession at he
  split at he <;> simp at he <;> subst he <;> rfl

/-- The trace of `unlock` is one Unlock call for `[p]`, followed by Prompt
calls only. -/
theorem unlock_kinds (s : SsProvider σ) (p : ObjectPath) (w : σ) :
    ∃ reply rest, (s.unlock p w).trace = .Unlock s.srv [p] reply :: rest ∧
      ∀ e ∈ rest, e.kind = .Prompt := by
  unfold SsProvider.unlock
  split
  · exact ⟨_, [], rfl, by simp⟩
  · split
    · exact ⟨_, [], rfl, by simp⟩
    · exact ⟨_, _, rfl, by simp [Event.kind]⟩

/-- Every event of `unlock` is an Unlock or a Prompt call. -/
theorem unlock_kinds_mem (s : SsProvider σ) (p : ObjectPath) (w : σ) :
    ∀ e ∈ (s.unlock p w).trace, e.kind = .Unlock ∨ e.kind = .Prompt := by
  obtain ⟨reply, rest, h, hrest⟩ := unlock_kinds s p w
  intro e he
  rw [h] at he
  rcases List.mem_cons.1 he with he | he
  · left; subst he; rfl
  · right; exact hrest e he

/-- The trace of the closing call is the one Close call, and its value is the
call's error. -/
theorem closeSession_trace (s : SsProvider σ) (session : Object) (w : σ) :
    (s.closeSession session w).trace = [.Close session (s.Conn.Close session w).1] ∧
    (s.closeSession session w).ret = (s.Conn.Close session w).1.map .lib := by
  unfold SsProvider.closeSession
  constructor <;> rfl

end Steps

/-! ## C9: the unlock step and the prompt path "/" -/

/-- C9, as stated, fails: on the scripted connection whose Unlock call succeeds
and answers with the prompt path "/", `unlock` issues no Prompt call but does
not return nil; it returns the error "Unexpected prompt of '/' returned". -/
theorem unlock_sentinel_counterexample :
    Event.Unlock scriptedProvider.srv [ssCollectionPath] (.ok ([], lit "/")) ∈
        (scriptedProvider.unlock ssCollectionPath okScript).trace ∧
      (scriptedProvider.unlock ssCollectionPath okScript).ret ≠ none ∧
      (scriptedProvider.unlock ssCollectionPath okScript).ret =
        some (.Errorf (lit "keyring/dbus: Unexpected prompt of '/' returned")) := by
  decide

/-- C9, amended: for every object path `p`, (1) when the Unlock call succeeds
and answers with the prompt path "/", `unlock` issues no Prompt call and
returns the error "keyring/dbus: Unexpected prompt of '/' returned"; (2) when
it answers with another prompt path, `unlock` issues exactly one Prompt call,
on that object, and returns the error result of that call; (3) when the Unlock
call fails, `unlock` issues no Prompt call and returns a non-nil error carrying
the failure's text. -/
theorem unlock_sentinel_amended {σ : Type} (s : SsProvider σ) (p : ObjectPath) (w : σ) :
    (∀ unlocked, Event.Unlock s.srv [p] (.ok (unlocked, lit "/")) ∈ (s.unlock p w).trace →
      (s.unlock p w).ret =
          some (.Errorf (lit "keyring/dbus: Unexpected prompt of '/' returned")) ∧
        (s.unlock p w).trace = [.Unlock s.srv [p] (.ok (unlocked, lit "/"))]) ∧
    (∀ unlocked prompt, prompt ≠ lit "/" →
      Event.Unlock s.srv [p] (.ok (unlocked, prompt)) ∈ (s.unlock p w).trace →
      ∃ callErr,
        (s.unlock p w).trace =
          [.Unlock s.srv [p] (.ok (unlocked, prompt)),
           .Prompt (s.Object ssServiceName prompt) (lit "unlock") callErr] ∧
        (s.unlock p w).ret = callErr.map .lib) ∧
    (∀ err, Event.Unlock s.srv [p] (.error err) ∈ (s.unlock p w).trace →
      (s.unlock p w).ret = some (.Errorf (lit "keyring/dbus: Unlock error: " ++ err.msg)) ∧
        (s.unlock p w).ret ≠ none ∧
        (s.unlock p w).trace = [.Unlock s.srv [p] (.error err)]) := by
  unfold SsProvider.unlock
  refine ⟨?_, ?_, ?_⟩
  · intro unlocked h
    split at h
    · simp at h
    · split at h
      · rename_i hp
        simp at h
        obtain ⟨h1, h2⟩ := h
        subst h1 h2
        simp_all
      · rename_i hp
        simp at h
        obtain ⟨h1, h2⟩ := h
        exact absurd h2.symm hp
  · intro unlocked prompt hne h
    split at h
    · simp at h
    · split at h
      · rename_i hp
        simp at h
        obtain ⟨h1, h2⟩ := h
        exact absurd (h2 ▸ hp) hne
      · rename_i hp
        simp at h
        obtain ⟨h1, h2⟩ := h
        subst h1 h2
        simp_all
  · intro err h
    split at h
    · simp at h
      subst h
      simp_all
    · split at h <;> simp at h

/-! ## The shape of `Get` and `Set` -/

section Shape

variable {σ : Type}

/-- The trace of the search step is the one SearchItems call, and its value is
what `Store` left in the two slices. -/
theorem searchItems_trace (s : SsProvider σ) (search : Attrs) (w : σ) :
    (s.searchItems search w).trace =
        [.SearchItems (s.Object ssServiceName ssCollectionPath) search
          (s.Conn.SearchItems (s.Object ssServiceName ssCollectionPath) search w).1] ∧
      (s.searchItems search w).ret =
        Store (s.Conn.SearchItems (s.Object ssServiceName ssCollectionPath) search w).1
          ([], []) :=
  ⟨rfl, rfl⟩

/-- Both slices have length zero exactly when the pair is the pair of empty
slices. -/
theorem length_zero_and {α : Type} (p : List α × List α) :
    (p.1.length = 0 ∧ p.2.length = 0) ↔ p = ([], []) := by
  rcases p with ⟨a, b⟩
  simp

/-- The branch `Get` takes, in terms of the steps it is made of. -/
theorem Get_cases (s : SsProvider σ) (c u : GoString) (w : σ) :
    (∃ err w1 t1, s.openSession w = ⟨.error err, w1, t1⟩ ∧
        s.Get c u w = ⟨(lit "", some err), w1, t1⟩) ∨
    (∃ session w1 t1 r2 r3, s.openSession w = ⟨.ok session, w1, t1⟩ ∧
        r2 = s.unlock ssCollectionPath w1 ∧
        r3 = s.searchItems [(lit "username", u), (lit "service", c)] r2.world ∧
        ((r3.ret = ([], []) ∧
            s.Get c u w =
              ⟨(lit "", some ErrNotFound), r3.world, t1 ++ r2.trace ++ r3.trace⟩) ∨
         (r3.ret ≠ ([], []) ∧ ∃ r4 r5,
            r4 = s.fetch session r3.ret.1 r3.ret.2 r3.world ∧
            r5 = s.closeSession session r4.world ∧
            s.Get c u w =
              ⟨(match r5.ret with
                | some callErr => (lit "", some callErr)
                | none => (GoString.ofBytes r4.ret.Value, none)),
               r5.world, t1 ++ r2.trace ++ r3.trace ++ r4.trace ++ r5.trace⟩))) := by
  rcases h : s.openSession w with ⟨ret, w1, t1⟩
  cases ret with
  | error err =>
    left
    exact ⟨err, w1, t1, rfl, by simp only [SsProvider.Get, h]⟩
  | ok session =>
    right
    refine ⟨session, w1, t1, _, _, rfl, rfl, rfl, ?_⟩
    by_cases hr : (s.searchItems [(lit "username", u), (lit "service", c)]
        (s.unlock ssCollectionPath w1).world).ret = ([], [])
    · left
      refine ⟨hr, ?_⟩
      have hr' := (length_zero_and _).2 hr
      simp only [SsProvider.Get, h]
      rw [if_pos hr']
    · right
      refine ⟨hr, _, _, rfl, rfl, ?_⟩
      have hr' := fun hh => hr ((length_zero_and _).1 hh)
      simp only [SsProvider.Get, h]
      rw [if_neg hr']
      split <;> rename_i hc <;> simp [hc]

/-- The branch `Set` takes, in terms of the steps it is made of. -/
theorem Set_cases (s : SsProvider σ) (c u p : GoString) (w : σ) :
    (∃ err w1 t1, s.openSession w = ⟨.error err, w1, t1⟩ ∧
        s.Set c u p w = ⟨some err, w1, t1⟩) ∨
    (∃ session w1 t1 r2 r3, s.openSession w = ⟨.ok session, w1, t1⟩ ∧
        r2 = s.unlock ssCollectionPath w1 ∧
        r3 = s.createItem
          [(lit "org.freedesktop.Secret.Item.Label", .str (u ++ lit " - " ++ c)),
           (lit "org.freedesktop.Secret.Item.Attributes",
             .dict [(lit "username", u), (lit "service", c)])]
          (newSSSecret session.Path p) r2.world ∧
        ((∃ err, r3.ret = some err ∧
            s.Set c u p w =
              ⟨some (.Errorf (lit "keyring/dbus: CreateItem error: " ++ err.msg)), r3.world,
                t1 ++ r2.trace ++ r3.trace⟩) ∨
         (r3.ret = none ∧ ∃ r4,
            r4 = s.closeSession session r3.world ∧
            s.Set c u p w = ⟨r4.ret, r4.world, t1 ++ r2.trace ++ r3.trace ++ r4.trace⟩))) := by
  rcases h : s.openSession w with ⟨ret, w1, t1⟩
  cases ret with
  | error err =>
    left
    exact ⟨err, w1, t1, rfl, by simp only [SsProvider.Set, h]⟩
  | ok session =>
    right
    refine ⟨session, w1, t1, _, _, rfl, rfl, rfl, ?_⟩
    simp only [SsProvider.Set, h]
    split <;> rename_i hc
    · left; exact ⟨_, hc, rfl⟩
    · right; exact ⟨hc, _, rfl, rfl⟩

/-- The trace of one fetch is the GetSecret call and the print of the secret
it left. -/
theorem getSecret_trace (s : SsProvider σ) (r : ObjectPath) (session : Object)
    (secret : ssSecret) (w : σ) :
    (s.getSecret r session secret w).trace =
        [.GetSecret (s.Object ssServiceName r) session.Path
            (s.Conn.GetSecret (s.Object ssServiceName r) session.Path w).1,
         .Println (lit "GetSecret") (s.getSecret r session secret w).ret] ∧
      (s.getSecret r session secret w).ret =
        Store (s.Conn.GetSecret (s.Object ssServiceName r) session.Path w).1 secret :=
  ⟨rfl, rfl⟩

/-- The create step either fails, with the CreateItem call alone in its trace,
or succeeds, followed by a Prompt call exactly when the prompt path is not
"/". -/
theorem createItem_cases (s : SsProvider σ) (properties : Properties) (secret : ssSecret)
    (w : σ) :
    (∃ err,
      (s.createItem properties secret w).trace =
        [.CreateItem ⟨ssServiceName, ssCollectionPath⟩ properties secret true (.error err)] ∧
      (s.createItem properties secret w).ret = some err) ∨
    (∃ item prompt pt,
      (s.createItem properties secret w).trace =
        .CreateItem ⟨ssServiceName, ssCollectionPath⟩ properties secret true
          (.ok (item, prompt)) :: pt ∧
      (s.createItem properties secret w).ret = none ∧
      (prompt = lit "/" → pt = []) ∧
      (prompt ≠ lit "/" → ∃ perr, pt = [.Prompt ⟨ssServiceName, prompt⟩ (lit "unlock") perr])) := by
  unfold SsProvider.createItem
  simp only
  split
  · exact Or.inl ⟨_, rfl, rfl⟩
  · right
    split
    · rename_i hp
      exact ⟨_, _, _, rfl, rfl, fun h => absurd h hp, fun _ => ⟨_, rfl⟩⟩
    · rename_i hp
      exact ⟨_, _, [], rfl, rfl, fun _ => rfl, fun h => absurd h hp⟩

/-- The fetch step reads one item: the first unlocked one, or else the first
locked one after the unlock step for it. -/
theorem fetch_trace (s : SsProvider σ) (session : Object) (unlocked locked : List ObjectPath)
    (w : σ) (h : (unlocked, locked) ≠ ([], [])) :
    ∃ r ut w1,
      (unlocked.head? = some r ∨ (unlocked = [] ∧ locked.head? = some r)) ∧
      (unlocked ≠ [] → ut = [] ∧ w1 = w) ∧
      (unlocked = [] → ut = (s.unlock r w).trace ∧ w1 = (s.unlock r w).world) ∧
      s.fetch session unlocked locked w =
        ⟨(s.getSecret r session ssSecret.zero w1).ret,
         (s.getSecret r session ssSecret.zero w1).world,
         ut ++ (s.getSecret r session ssSecret.zero w1).trace⟩ := by
  unfold SsProvider.fetch
  cases unlocked with
  | nil =>
    cases locked with
    | nil => exact absurd rfl h
    | cons r rest =>
      exact ⟨r, _, _, Or.inr ⟨rfl, rfl⟩, by simp, fun _ => ⟨rfl, rfl⟩, by simp⟩
  | cons r rest =>
    exact ⟨r, [], w, Or.inl rfl, fun _ => ⟨rfl, rfl⟩, by simp, by simp⟩

end Shape

/-! ## C3: nothing found -/

/-- C3: for every service `c` and username `u`, when the SearchItems call of
`Get` for the attributes {username: u, service: c} answers with an empty
unlocked list and an empty locked list, `Get` returns the empty string together
with `ErrNotFound`, and its trace holds no GetSecret call. -/
theorem Get_not_found {σ : Type} (s : SsProvider σ) (c u : GoString) (w : σ)
    (h : Event.SearchItems (s.Object ssServiceName ssCollectionPath)
          [(lit "username", u), (lit "service", c)] (.ok ([], [])) ∈ (s.Get c u w).trace) :
    (s.Get c u w).ret = (lit "", some ErrNotFound) ∧
      ∀ e ∈ (s.Get c u w).trace, e.kind ≠ .GetSecret := by
  rcases Get_cases s c u w with ⟨err, w1, t1, ho, hG⟩ |
    ⟨session, w1, t1, r2, r3, ho, h2, h3, hcase⟩
  · rw [hG] at h
    have := openSession_kinds s w _ (by rw [ho]; exact h)
    simp [Event.kind] at this
  · have ht1 : ∀ e ∈ t1, e.kind = .OpenSession := by
      have := openSession_kinds s w
      rwa [ho] at this
    have ht2 : ∀ e ∈ r2.trace, e.kind = .Unlock ∨ e.kind = .Prompt := by
      rw [h2]; exact unlock_kinds_mem s _ _
    have ht3 := searchItems_trace s [(lit "username", u), (lit "service", c)] r2.world
    rw [← h3] at ht3
    rcases hcase with ⟨hr, hG⟩ | ⟨hr, r4, r5, h4, h5, hG⟩
    · rw [hG]
      refine ⟨rfl, ?_⟩
      intro e he
      simp only [List.mem_append] at he
      rcases he with (he | he) | he
      · rw [ht1 e he]; decide
      · rcases ht2 e he with hk | hk <;> rw [hk] <;> decide
      · rw [ht3.1] at he
        simp at he
        subst he
        simp [Event.kind]
    · exfalso
      rw [hG] at h
      simp only [List.mem_append] at h
      rcases h with (((h | h) | h) | h) | h
      · have := ht1 _ h
        simp [Event.kind] at this
      · have := ht2 _ h
        simp [Event.kind] at this
      · rw [ht3.1] at h
        simp at h
        apply hr
        rw [ht3.2, ← h]
        rfl
      · obtain ⟨r, ut, w', _, hu, hl, hf⟩ := fetch_trace s session r3.ret.1 r3.ret.2 r3.world hr
        rw [h4, hf] at h
        simp only [List.mem_append] at h
        rcases h with h | h
        · by_cases hn : r3.ret.1 = []
          · rw [(hl hn).1] at h
            have := unlock_kinds_mem s _ _ _ h
            simp [Event.kind] at this
          · rw [(hu hn).1] at h
            simp at h
        · rw [(getSecret_trace s _ _ _ _).1] at h
          simp at h
      · rw [h5, (closeSession_trace s _ _).1] at h
        simp at h

/-- A run of C3: the scripted connection whose search finds nothing. -/
theorem Get_not_found_witness :
    (scriptedProvider.Get (lit "svcX") (lit "userY") notFoundScript).ret =
        (lit "", some ErrNotFound) ∧
      ∀ e ∈ (scriptedProvider.Get (lit "svcX") (lit "userY") notFoundScript).trace,
        e.kind ≠ .GetSecret :=
  Get_not_found scriptedProvider (lit "svcX") (lit "userY") notFoundScript (by decide)

/-! ## The full trace of `Get` and `Set` -/

section Anatomy

variable {σ : Type}

/-- The method `openSession` either fails with the library error or hands back
the session object at the returned path. -/
theorem openSession_cases (s : SsProvider σ) (w : σ) :
    (∃ err w1, s.openSession w =
        ⟨.error (.lib err), w1, [.OpenSession s.srv (lit "plain") (.str (lit "")) (.error err)]⟩) ∨
    (∃ disregard sp w1, s.openSession w =
        ⟨.ok ⟨ssServiceName, sp⟩, w1,
          [.OpenSession s.srv (lit "plain") (.str (lit "")) (.ok (disregard, sp))]⟩) := by
  unfold SsProvider.openSession
  split
  · exact Or.inl ⟨_, _, rfl⟩
  · exact Or.inr ⟨_, _, _, rfl⟩

/-- The trace of `Get`, call by call, and the value it returns. -/
theorem Get_anatomy (s : SsProvider σ) (c u : GoString) (w : σ) :
    (∃ err,
      (s.Get c u w).trace = [.OpenSession s.srv (lit "plain") (.str (lit "")) (.error err)] ∧
      (s.Get c u w).ret = (lit "", some (.lib err))) ∨
    (∃ disregard sp r0 rest0 reply,
      (∀ e ∈ rest0, e.kind = .Prompt) ∧
      ((Store reply ([], []) = ([], []) ∧
        (s.Get c u w).trace =
          .OpenSession s.srv (lit "plain") (.str (lit "")) (.ok (disregard, sp)) ::
            .Unlock s.srv [ssCollectionPath] r0 :: rest0 ++
            [.SearchItems ⟨ssServiceName, ssCollectionPath⟩
              [(lit "username", u), (lit "service", c)] reply] ∧
        (s.Get c u w).ret = (lit "", some ErrNotFound)) ∨
       (Store reply ([], []) ≠ ([], []) ∧ ∃ r ut greply cerr,
        ((Store reply ([], [])).1.head? = some r ∨
          ((Store reply ([], [])).1 = [] ∧ (Store reply ([], [])).2.head? = some r)) ∧
        ((Store reply ([], [])).1 ≠ [] → ut = []) ∧
        ((Store reply ([], [])).1 = [] → ∃ r1 rest1, ut = .Unlock s.srv [r] r1 :: rest1 ∧
          ∀ e ∈ rest1, e.kind = .Prompt) ∧
        (s.Get c u w).trace =
          .OpenSession s.srv (lit "plain") (.str (lit "")) (.ok (disregard, sp)) ::
            .Unlock s.srv [ssCollectionPath] r0 :: rest0 ++
            [.SearchItems ⟨ssServiceName, ssCollectionPath⟩
              [(lit "username", u), (lit "service", c)] reply] ++ ut ++
            [.GetSecret ⟨ssServiceName, r⟩ sp greply,
             .Println (lit "GetSecret") (Store greply ssSecret.zero),
             .Close ⟨ssServiceName, sp⟩ cerr] ∧
        (s.Get c u w).ret =
          if cerr.isSome then (lit "", cerr.map .lib)
          else (GoString.ofBytes (Store greply ssSecret.zero).Value, none)))) := by
  rcases Get_cases s c u w with ⟨err, w1, t1, ho, hG⟩ |
    ⟨session, w1, t1, r2, r3, ho, h2, h3, hcase⟩
  · left
    rcases openSession_cases s w with ⟨e, w', h⟩ | ⟨d, sp, w', h⟩
    · rw [h] at ho
      injection ho with h1 h2 h3
      cases h1
      subst h3
      exact ⟨e, by rw [hG], by rw [hG]⟩
    · rw [h] at ho
      injection ho with h1 h2 h3
      cases h1
  · right
    rcases openSession_cases s w with ⟨e, w', h⟩ | ⟨d, sp, w', h⟩
    · rw [h] at ho
      injection ho with h1 h2 h3
      cases h1
    · rw [h] at ho
      injection ho with h1 h2' h3'
      cases h1
      subst h2' h3'
      obtain ⟨r0, rest0, hu0, hrest0⟩ := unlock_kinds s ssCollectionPath w'
      have ht3 := searchItems_trace s [(lit "username", u), (lit "service", c)] r2.world
      rw [← h3] at ht3
      rw [← h2] at hu0
      refine ⟨d, sp, r0, rest0, (s.Conn.SearchItems (s.Object ssServiceName ssCollectionPath)
        [(lit "username", u), (lit "service", c)] r2.world).1, hrest0, ?_⟩
      rw [← ht3.2]
      rcases hcase with ⟨hr, hG⟩ | ⟨hr, r4, r5, h4, h5, hG⟩
      · left
        refine ⟨hr, ?_, by rw [hG]⟩
        rw [hG, hu0, ht3.1]
        simp [SsProvider.Object]
      · right
        refine ⟨hr, ?_⟩
        obtain ⟨r, ut, w1, hhead, hu, hl, hf⟩ :=
          fetch_trace s ⟨ssServiceName, sp⟩ r3.ret.1 r3.ret.2 r3.world hr
        have hg := getSecret_trace s r ⟨ssServiceName, sp⟩ ssSecret.zero w1
        have hc := closeSession_trace s ⟨ssServiceName, sp⟩ r4.world
        rw [← h5] at hc
        refine ⟨r, ut, (s.Conn.GetSecret (s.Object ssServiceName r) sp w1).1,
          (s.Conn.Close ⟨ssServiceName, sp⟩ r4.world).1, hhead,
          fun hn => (hu hn).1, ?_, ?_, ?_⟩
        · intro hn
          rw [(hl hn).1]
          exact unlock_kinds s r r3.world
        · rw [hG, hu0, ht3.1, hc.1, h4, hf, hg.1, hg.2]
          simp [SsProvider.Object, Object.Path]
        · rw [hG, hc.2, h4, hf, hg.2]
          simp only [Object.Path]
          cases (s.Conn.Close ⟨ssServiceName, sp⟩ _).1 <;> rfl

/-- The trace of `Set`, call by call, and the value it returns. -/
theorem Set_anatomy (s : SsProvider σ) (c u p : GoString) (w : σ) :
    (∃ err,
      (s.Set c u p w).trace = [.OpenSession s.srv (lit "plain") (.str (lit "")) (.error err)] ∧
      (s.Set c u p w).ret = some (.lib err)) ∨
    (∃ disregard sp r0 rest0,
      (∀ e ∈ rest0, e.kind = .Prompt) ∧
      ((∃ err,
        (s.Set c u p w).trace =
          .OpenSession s.srv (lit "plain") (.str (lit "")) (.ok (disregard, sp)) ::
            .Unlock s.srv [ssCollectionPath] r0 :: rest0 ++
            [.CreateItem ⟨ssServiceName, ssCollectionPath⟩
              [(lit "org.freedesktop.Secret.Item.Label", .str (u ++ lit " - " ++ c)),
               (lit "org.freedesktop.Secret.Item.Attributes",
                 .dict [(lit "username", u), (lit "service", c)])]
              (newSSSecret sp p) true (.error err)] ∧
        (s.Set c u p w).ret =
          some (.Errorf (lit "keyring/dbus: CreateItem error: " ++ err.msg))) ∨
       (∃ item prompt pt cerr,
        (prompt = lit "/" → pt = []) ∧
        (prompt ≠ lit "/" →
          ∃ perr, pt = [.Prompt ⟨ssServiceName, prompt⟩ (lit "unlock") perr]) ∧
        (s.Set c u p w).trace =
          .OpenSession s.srv (lit "plain") (.str (lit "")) (.ok (disregard, sp)) ::
            .Unlock s.srv [ssCollectionPath] r0 :: rest0 ++
            [.CreateItem ⟨ssServiceName, ssCollectionPath⟩
              [(lit "org.freedesktop.Secret.Item.Label", .str (u ++ lit " - " ++ c)),
               (lit "org.freedesktop.Secret.Item.Attributes",
                 .dict [(lit "username", u), (lit "service", c)])]
              (newSSSecret sp p) true (.ok (item, prompt))] ++ pt ++
            [.Close ⟨ssServiceName, sp⟩ cerr] ∧
        (s.Set c u p w).ret = cerr.map .lib))) := by
  rcases Set_cases s c u p w with ⟨err, w1, t1, ho, hS⟩ |
    ⟨session, w1, t1, r2, r3, ho, h2, h3, hcase⟩
  · left
    rcases openSession_cases s w with ⟨e, w', h⟩ | ⟨d, sp, w', h⟩
    · rw [h] at ho
      injection ho with h1 h2 h3
      cases h1
      subst h3
      exact ⟨e, by rw [hS], by rw [hS]⟩
    · rw [h] at ho
      injection ho with h1 h2 h3
      cases h1
  · right
    rcases openSession_cases s w with ⟨e, w', h⟩ | ⟨d, sp, w', h⟩
    · rw [h] at ho
      injection ho with h1 h2 h3
      cases h1
    · rw [h] at ho
      injection ho with h1 h2' h3'
      cases h1
      subst h2' h3'
      obtain ⟨r0, rest0, hu0, hrest0⟩ := unlock_kinds s ssCollectionPath w'
      rw [← h2] at hu0
      refine ⟨d, sp, r0, rest0, hrest0, ?_⟩
      have hc := createItem_cases s
        [(lit "org.freedesktop.Secret.Item.Label", .str (u ++ lit " - " ++ c)),
         (lit "org.freedesktop.Secret.Item.Attributes",
           .dict [(lit "username", u), (lit "service", c)])]
        (newSSSecret sp p) r2.world
      simp only [Object.Path] at h3
      rw [← h3] at hc
      rcases hcase with ⟨err, hr, hS⟩ | ⟨hr, r4, h4, hS⟩
      · left
        rcases hc with ⟨err', ht, hret⟩ | ⟨item, prompt, pt, ht, hret, _⟩
        · rw [hr] at hret
          cases hret
          refine ⟨err, ?_, by rw [hS]⟩
          rw [hS, hu0, ht]
          simp
        · rw [hr] at hret
          cases hret
      · right
        rcases hc with ⟨err', ht, hret⟩ | ⟨item, prompt, pt, ht, hret, hp1, hp2⟩
        · rw [hr] at hret
          cases hret
        · have hcl := closeSession_trace s ⟨ssServiceName, sp⟩ r3.world
          rw [← h4] at hcl
          refine ⟨item, prompt, pt, _, hp1, hp2, ?_, by rw [hS, hcl.2]⟩
          rw [hS, hu0, ht, hcl.1]
          simp

end Anatomy

/-! ## C6: a failing Close -/

/-- An event that is no Prompt call is not in a list of Prompt calls. -/
theorem not_mem_prompts {l : List Event} (hl : ∀ e ∈ l, e.kind = .Prompt) {x : Event}
    (hx : x.kind ≠ .Prompt) : x ∉ l :=
  fun h => hx (hl x h)

/-- An event that is neither an Unlock nor a Prompt call is not in the trace
of an unlock step. -/
theorem not_mem_unlock_step {l rest : List Event} {o : Object} {ps : List ObjectPath}
    {r : Except LibError (List ObjectPath × ObjectPath)}
    (h : l = .Unlock o ps r :: rest) (hl : ∀ e ∈ rest, e.kind = .Prompt) {x : Event}
    (hx : x.kind ≠ .Prompt) (hx' : x.kind ≠ .Unlock) : x ∉ l := by
  subst h
  intro hm
  rcases List.mem_cons.1 hm with hm | hm
  · subst hm
    exact hx' rfl
  · exact hx (hl x hm)

/-- C6: in `Get`, whenever the session Close call fails with `e`, a GetSecret
call was issued before it and `Get` still returns the empty string and the
error `e`; in `Set`, whenever the Close call fails with `e`, CreateItem had
succeeded and `Set` still returns `e`; and whenever the Close call succeeds,
`Get` returns the bytes stored by GetSecret with a nil error and `Set` returns
nil. -/
theorem close_failure_is_failure {σ : Type} (s : SsProvider σ) (c u p : GoString) (w : σ) :
    (∀ session e, Event.Close session (some e) ∈ (s.Get c u w).trace →
      (s.Get c u w).ret = (lit "", some (.lib e)) ∧
        ∃ ev ∈ (s.Get c u w).trace, ev.kind = .GetSecret) ∧
    (∀ session e, Event.Close session (some e) ∈ (s.Set c u p w).trace →
      (s.Set c u p w).ret = some (.lib e) ∧
        ∃ properties secret reply, Event.CreateItem ⟨ssServiceName, ssCollectionPath⟩
          properties secret true (.ok reply) ∈ (s.Set c u p w).trace) ∧
    (∀ session, Event.Close session none ∈ (s.Get c u w).trace →
      (s.Get c u w).ret.2 = none ∧
        ∃ item sess reply, Event.GetSecret item sess reply ∈ (s.Get c u w).trace ∧
          (s.Get c u w).ret.1 = GoString.ofBytes (Store reply ssSecret.zero).Value) ∧
    (∀ session, Event.Close session none ∈ (s.Set c u p w).trace →
      (s.Set c u p w).ret = none) := by
  have hG : ∀ session cerr, Event.Close session cerr ∈ (s.Get c u w).trace →
      (s.Get c u w).ret.2 = cerr.map .lib ∧
      ∃ item sess reply, Event.GetSecret item sess reply ∈ (s.Get c u w).trace ∧
        (s.Get c u w).ret.1 =
          if cerr.isSome then lit "" else GoString.ofBytes (Store reply ssSecret.zero).Value := by
    intro session cerr h
    rcases Get_anatomy s c u w with ⟨err, ht, _⟩ |
      ⟨d, sp, r0, rest0, reply, hrest0, ⟨_, ht, _⟩ | ⟨hne, r, ut, greply, cerr', hhead, hu, hl, ht, hret⟩⟩
    · rw [ht] at h
      simp at h
    · rw [ht] at h
      have := not_mem_prompts hrest0 (x := Event.Close session cerr) (by simp [Event.kind])
      simp [this] at h
    · have h0 := not_mem_prompts hrest0 (x := Event.Close session cerr) (by simp [Event.kind])
      have h1 : Event.Close session cerr ∉ ut := by
        by_cases hn : (Store reply ([], [])).1 = []
        · obtain ⟨r1, rest1, hut, hr1⟩ := hl hn
          exact not_mem_unlock_step hut hr1 (by simp [Event.kind]) (by simp [Event.kind])
        · rw [hu hn]
          simp
      have ht' := ht
      rw [ht] at h
      simp [h0, h1] at h
      obtain ⟨_, h⟩ := h
      subst h
      refine ⟨by rw [hret]; cases cerr <;> rfl, ⟨ssServiceName, r⟩, sp, greply,
        by rw [ht']; simp, ?_⟩
      rw [hret]
      cases cerr <;> rfl
  have hS : ∀ session cerr, Event.Close session cerr ∈ (s.Set c u p w).trace →
      (s.Set c u p w).ret = cerr.map .lib ∧
      ∃ properties secret reply, Event.CreateItem ⟨ssServiceName, ssCollectionPath⟩
          properties secret true (.ok reply) ∈ (s.Set c u p w).trace := by
    intro session cerr h
    rcases Set_anatomy s c u p w with ⟨err, ht, _⟩ |
      ⟨d, sp, r0, rest0, hrest0, ⟨err, ht, _⟩ | ⟨item, prompt, pt, cerr', hp1, hp2, ht, hret⟩⟩
    · rw [ht] at h
      simp at h
    · rw [ht] at h
      have := not_mem_prompts hrest0 (x := Event.Close session cerr) (by simp [Event.kind])
      simp [this] at h
    · have h0 := not_mem_prompts hrest0 (x := Event.Close session cerr) (by simp [Event.kind])
      have h1 : Event.Close session cerr ∉ pt := by
        by_cases hn : prompt = lit "/"
        · rw [hp1 hn]
          simp
        · obtain ⟨perr, hpt⟩ := hp2 hn
          rw [hpt]
          simp
      have ht' := ht
      rw [ht] at h
      simp [h0, h1] at h
      obtain ⟨_, h⟩ := h
      subst h
      exact ⟨hret,
        [(lit "org.freedesktop.Secret.Item.Label", .str (u ++ lit " - " ++ c)),
         (lit "org.freedesktop.Secret.Item.Attributes",
           .dict [(lit "username", u), (lit "service", c)])],
        newSSSecret sp p, (item, prompt), by rw [ht']; simp⟩
  refine ⟨?_, ?_, ?_, ?_⟩
  · intro session e h
    obtain ⟨h1, item, sess, reply, h2, h3⟩ := hG session (some e) h
    refine ⟨Prod.ext (by simpa using h3) (by simpa using h1), _, h2, rfl⟩
  · intro session e h
    exact hS session (some e) h
  · intro session h
    obtain ⟨h1, item, sess, reply, h2, h3⟩ := hG session none h
    exact ⟨by simpa using h1, item, sess, reply, h2, by simpa using h3⟩
  · intro session h
    exact (hS session none h).1

/-! ## C10: which item `Get` reads -/


/-- C10, as stated, fails in its last clause: on the scripted connection whose
search finds the unlocked item "/i/1", whose GetSecret call delivers a secret
with the Value bytes of "pw", and whose session Close call fails, `Get` returns
the empty text, not the Value bytes of that item's secret. -/
theorem Get_tie_break_counterexample :
    Event.SearchItems ⟨ssServiceName, ssCollectionPath⟩
        [(lit "username", lit "me"), (lit "service", lit "svc")] (.ok ([lit "/i/1"], [])) ∈
      (scriptedProvider.Get (lit "svc") (lit "me") closeFailScript).trace ∧
    Event.GetSecret ⟨ssServiceName, lit "/i/1"⟩ (lit "/s/1")
        (.ok ⟨lit "/s/1", [], (lit "pw").toBytes, lit "text/plain"⟩) ∈
      (scriptedProvider.Get (lit "svc") (lit "me") closeFailScript).trace ∧
    (scriptedProvider.Get (lit "svc") (lit "me") closeFailScript).ret.1 = lit "" ∧
    (scriptedProvider.Get (lit "svc") (lit "me") closeFailScript).ret.1 ≠
      GoString.ofBytes (lit "pw").toBytes := by
  decide

/-- C10, amended: when the SearchItems call of `Get` answers with
`(unlocked, locked)`, not both empty, `Get` picks one item `r`: `unlocked[0]`
if `unlocked` is not empty, otherwise `locked[0]`. After the search the trace
holds, in this order, the unlock step for `r` (only when `unlocked` is empty:
one Unlock call for `[r]` and the Prompt call it may lead to; nothing when
`unlocked` is not empty), one GetSecret call on `r`, the print, and the session
Close. Before the search there is no GetSecret call and the only Unlock is the
one for the default collection, so `r` is the only item to receive an Unlock
or a GetSecret call. When GetSecret answered with a secret and Close succeeds,
the text returned is that secret's `Value` with a nil error; when Close fails
the text returned is empty and the error is the close error. -/
theorem Get_tie_break {σ : Type} (s : SsProvider σ) (c u : GoString) (w : σ)
    (unlocked locked : List ObjectPath)
    (hsearch : Event.SearchItems ⟨ssServiceName, ssCollectionPath⟩
        [(lit "username", u), (lit "service", c)] (.ok (unlocked, locked)) ∈
          (s.Get c u w).trace)
    (hne : unlocked ≠ [] ∨ locked ≠ []) :
    ∃ r sp pre ut greply cerr,
      (unlocked.head? = some r ∨ (unlocked = [] ∧ locked.head? = some r)) ∧
      (∀ e ∈ pre, e.kind ≠ .GetSecret ∧
        ∀ o objs rep, e = .Unlock o objs rep → objs = [ssCollectionPath]) ∧
      (unlocked ≠ [] → ut = []) ∧
      (unlocked = [] → ∃ r1 rest1, ut = .Unlock s.srv [r] r1 :: rest1 ∧
        ∀ e ∈ rest1, e.kind = .Prompt) ∧
      (s.Get c u w).trace =
        pre ++ [.SearchItems ⟨ssServiceName, ssCollectionPath⟩
          [(lit "username", u), (lit "service", c)] (.ok (unlocked, locked))] ++ ut ++
        [.GetSecret ⟨ssServiceName, r⟩ sp greply,
         .Println (lit "GetSecret") (Store greply ssSecret.zero),
         .Close ⟨ssServiceName, sp⟩ cerr] ∧
      (s.Get c u w).trace.filter (fun e => e.kind = .GetSecret) =
        [.GetSecret ⟨ssServiceName, r⟩ sp greply] ∧
      (∀ got, cerr = none → greply = .ok got →
        (s.Get c u w).ret = (GoString.ofBytes got.Value, none)) ∧
      (∀ e, cerr = some e → (s.Get c u w).ret = (lit "", some (.lib e))) := by
  rcases Get_anatomy s c u w with ⟨err, ht, _⟩ |
    ⟨d, sp, r0, rest0, reply, hrest0, ⟨hnil, ht, _⟩ |
      ⟨hne', r, ut, greply, cerr, hhead, hu, hl, ht, hret⟩⟩
  · rw [ht] at hsearch
    simp at hsearch
  · exfalso
    rw [ht] at hsearch
    have h0 := not_mem_prompts hrest0
      (x := Event.SearchItems ⟨ssServiceName, ssCollectionPath⟩
        [(lit "username", u), (lit "service", c)] (.ok (unlocked, locked)))
      (by simp [Event.kind])
    simp [h0] at hsearch
    subst hsearch
    simp [Store] at hnil
    rcases hne with h | h
    · exact h hnil.1
    · exact h hnil.2
  · have hx : ∀ {l : List Event}, (∀ e ∈ l, e.kind = .Prompt) →
        Event.SearchItems ⟨ssServiceName, ssCollectionPath⟩
          [(lit "username", u), (lit "service", c)] (.ok (unlocked, locked)) ∉ l :=
      fun hl => not_mem_prompts hl (by simp [Event.kind])
    have h1 : Event.SearchItems ⟨ssServiceName, ssCollectionPath⟩
          [(lit "username", u), (lit "service", c)] (.ok (unlocked, locked)) ∉ ut := by
      by_cases hn : (Store reply ([], [])).1 = []
      · obtain ⟨r1, rest1, hut, hr1⟩ := hl hn
        exact not_mem_unlock_step hut hr1 (by simp [Event.kind]) (by simp [Event.kind])
      · rw [hu hn]
        simp
    have ht' := ht
    rw [ht] at hsearch
    simp [hx hrest0, h1] at hsearch
    subst hsearch
    simp only [Store] at hhead hu hl
    have hfilter : ∀ l : List Event, (∀ e ∈ l, e.kind = .Prompt) →
        l.filter (fun e => e.kind = .GetSecret) = [] := by
      intro l hl
      rw [List.filter_eq_nil_iff]
      intro e he
      simp [hl e he]
    refine ⟨r, sp, .OpenSession s.srv (lit "plain") (.str (lit "")) (.ok (d, sp)) ::
      .Unlock s.srv [ssCollectionPath] r0 :: rest0, ut, greply, cerr, hhead, ?_, hu, hl, ?_, ?_, ?_,
      ?_⟩
    · intro e he
      simp only [List.mem_cons] at he
      rcases he with he | he | he
      · subst he
        simp [Event.kind]
      · subst he
        refine ⟨by simp [Event.kind], ?_⟩
        intro o objs rep h
        injection h with _ h _
        exact h.symm
      · refine ⟨by rw [hrest0 e he]; decide, ?_⟩
        intro o objs rep h
        have := hrest0 e he
        rw [h] at this
        simp [Event.kind] at this
    · rw [ht']
    · rw [ht']
      have hut : ut.filter (fun e => e.kind = .GetSecret) = [] := by
        by_cases hn : unlocked = []
        · obtain ⟨r1, rest1, hut, hr1⟩ := hl hn
          rw [hut, List.filter_cons_of_neg (by simp [Event.kind]), hfilter rest1 hr1]
        · rw [hu hn]
          rfl
      simp only [List.filter_append, List.cons_append, List.filter_cons, List.filter_nil]
      rw [hfilter rest0 hrest0, hut]
      simp [Event.kind]
    · intro got hc hg
      rw [hret, hc, hg]
      rfl
    · intro e hc
      rw [hret, hc]
      rfl

/-- A run of C10, amended: the scripted connection whose search finds two
locked items and no unlocked one. -/
theorem Get_tie_break_witness :
    ∃ r sp pre ut greply cerr,
      (([] : List ObjectPath).head? = some r ∨
        (([] : List ObjectPath) = [] ∧ [lit "/i/1", lit "/i/2"].head? = some r)) ∧
      (∀ e ∈ pre, e.kind ≠ .GetSecret ∧
        ∀ o objs rep, e = .Unlock o objs rep → objs = [ssCollectionPath]) ∧
      (([] : List ObjectPath) ≠ [] → ut = []) ∧
      (([] : List ObjectPath) = [] → ∃ r1 rest1,
        ut = .Unlock scriptedProvider.srv [r] r1 :: rest1 ∧ ∀ e ∈ rest1, e.kind = .Prompt) ∧
      (scriptedProvider.Get (lit "svc") (lit "me") lockedScript).trace =
        pre ++ [.SearchItems ⟨ssServiceName, ssCollectionPath⟩
          [(lit "username", lit "me"), (lit "service", lit "svc")]
          (.ok ([], [lit "/i/1", lit "/i/2"]))] ++ ut ++
        [.GetSecret ⟨ssServiceName, r⟩ sp greply,
         .Println (lit "GetSecret") (Store greply ssSecret.zero),
         .Close ⟨ssServiceName, sp⟩ cerr] ∧
      (scriptedProvider.Get (lit "svc") (lit "me") lockedScript).trace.filter
          (fun e => e.kind = .GetSecret) =
        [.GetSecret ⟨ssServiceName, r⟩ sp greply] ∧
      (∀ got, cerr = none → greply = .ok got →
        (scriptedProvider.Get (lit "svc") (lit "me") lockedScript).ret =
          (GoString.ofBytes got.Value, none)) ∧
      (∀ e, cerr = some e →
        (scriptedProvider.Get (lit "svc") (lit "me") lockedScript).ret =
          (lit "", some (.lib e))) :=
  Get_tie_break scriptedProvider (lit "svc") (lit "me") lockedScript [] [lit "/i/1", lit "/i/2"]
    (by decide) (by decide)

/-- A run of C6: the scripted connection whose Close call fails, and the one
where every call succeeds. -/
theorem close_failure_is_failure_witness :
    (scriptedProvider.Get (lit "svc") (lit "me") closeFailScript).ret =
        (lit "", some (.lib ⟨lit "connection closed"⟩)) ∧
      (scriptedProvider.Set (lit "svc") (lit "me") (lit "pw") closeFailScript).ret =
        some (.lib ⟨lit "connection closed"⟩) ∧
      (scriptedProvider.Get (lit "svc") (lit "me") okScript).ret.2 = none ∧
      (scriptedProvider.Set (lit "svc") (lit "me") (lit "pw") okScript).ret = none :=
  ⟨((close_failure_is_failure scriptedProvider (lit "svc") (lit "me") (lit "pw")
      closeFailScript).1 ⟨ssServiceName, lit "/s/1"⟩ ⟨lit "connection closed"⟩ (by decide)).1,
   ((close_failure_is_failure scriptedProvider (lit "svc") (lit "me") (lit "pw")
      closeFailScript).2.1 ⟨ssServiceName, lit "/s/1"⟩ ⟨lit "connection closed"⟩ (by decide)).1,
   ((close_failure_is_failure scriptedProvider (lit "svc") (lit "me") (lit "pw")
      okScript).2.2.1 ⟨ssServiceName, lit "/s/1"⟩ (by decide)).1,
   (close_failure_is_failure scriptedProvider (lit "svc") (lit "me") (lit "pw")
      okScript).2.2.2 ⟨ssServiceName, lit "/s/1"⟩ (by decide)⟩

/-- A run of C9, amended: the scripted connections whose Unlock call answers
"/", answers "/prompt/u1", and fails. -/
theorem unlock_sentinel_amended_witness :
    (scriptedProvider.unlock ssCollectionPath okScript).ret =
        some (.Errorf (lit "keyring/dbus: Unexpected prompt of '/' returned")) ∧
      (∃ callErr,
        (scriptedProvider.unlock ssCollectionPath promptScript).trace =
          [.Unlock scriptedProvider.srv [ssCollectionPath] (.ok ([], lit "/prompt/u1")),
           .Prompt (scriptedProvider.Object ssServiceName (lit "/prompt/u1")) (lit "unlock")
             callErr] ∧
        (scriptedProvider.unlock ssCollectionPath promptScript).ret = callErr.map .lib) ∧
      (scriptedProvider.unlock ssCollectionPath unlockFailScript).ret ≠ none :=
  ⟨((unlock_sentinel_amended scriptedProvider ssCollectionPath okScript).1 []
      (by decide)).1,
   (unlock_sentinel_amended scriptedProvider ssCollectionPath promptScript).2.1 []
      (lit "/prompt/u1") (by decide) (by decide),
   ((unlock_sentinel_amended scriptedProvider ssCollectionPath unlockFailScript).2.2
      ⟨lit "unlock refused"⟩ (by decide)).2.1⟩

/-! ## C4: sessions left open -/

/-- C4 fails on the code. On the scripted connection whose search finds
nothing, `Get` returns `ErrNotFound` having opened one session and closed none;
on the one whose CreateItem call fails, `Set` returns its error having opened
one session and closed none. On the one whose GetSecret call fails the session
is closed. -/
theorem session_left_open_on_early_return :
    ((scriptedProvider.Get (lit "svcX") (lit "userY") notFoundScript).ret =
        (lit "", some ErrNotFound) ∧
      opens (scriptedProvider.Get (lit "svcX") (lit "userY") notFoundScript).trace = 1 ∧
      closes (scriptedProvider.Get (lit "svcX") (lit "userY") notFoundScript).trace = 0) ∧
    ((scriptedProvider.Set (lit "svc") (lit "me") (lit "pw") createFailScript).ret =
        some (.Errorf (lit "keyring/dbus: CreateItem error: collection gone")) ∧
      opens (scriptedProvider.Set (lit "svc") (lit "me") (lit "pw") createFailScript).trace = 1 ∧
      closes (scriptedProvider.Set (lit "svc") (lit "me") (lit "pw") createFailScript).trace = 0) ∧
    (opens (scriptedProvider.Get (lit "svc") (lit "me") getSecretFailScript).trace = 1 ∧
      closes (scriptedProvider.Get (lit "svc") (lit "me") getSecretFailScript).trace = 1) := by
  decide

/-! ## C5: failures that do not surface -/

/-- C5 fails on the code. On the scripted connection whose GetSecret call
fails, `Get` issues the call, goes on to Close, and returns the empty text with
a nil error; on the one whose Unlock call fails, `Get` goes on to search and
fetch and returns the secret with a nil error, and `Set` goes on to CreateItem
and returns nil; on the one whose SearchItems call fails, `Get` returns
`ErrNotFound` instead of the failure. -/
theorem Get_swallows_failures :
    (Event.GetSecret ⟨ssServiceName, lit "/i/1"⟩ (lit "/s/1") (.error ⟨lit "no such object"⟩) ∈
        (scriptedProvider.Get (lit "svc") (lit "me") getSecretFailScript).trace ∧
      (scriptedProvider.Get (lit "svc") (lit "me") getSecretFailScript).ret = (lit "", none)) ∧
    (Event.Unlock scriptedProvider.srv [ssCollectionPath] (.error ⟨lit "unlock refused"⟩) ∈
        (scriptedProvider.Get (lit "svc") (lit "me") unlockFailScript).trace ∧
      (scriptedProvider.Get (lit "svc") (lit "me") unlockFailScript).ret = (lit "pw", none) ∧
      (scriptedProvider.Set (lit "svc") (lit "me") (lit "pw") unlockFailScript).ret = none) ∧
    (scriptedProvider.Get (lit "svc") (lit "me")
        { okScript with searchItems := .error ⟨lit "timeout"⟩ }).ret =
      (lit "", some ErrNotFound) := by
  decide

/-! ## C7: registration in `init` -/

/-- C7: in `init`, if connecting to the session bus fails, or the connection
succeeds and the liveness OpenSession call fails, `defaultProvider` is left as
it was; if both succeed `defaultProvider` is the new `SsProvider` on that
connection with the service object; so, starting unregistered, a provider is
registered if and only if both succeed. `init` is a total function: it returns
on every input. -/
theorem init_registers_iff {σ : Type} (SessionBus : Except LibError (Conn σ))
    (defaultProvider : Option (SsProvider σ)) (w : σ) :
    ((∃ err, SessionBus = .error err) → (init SessionBus defaultProvider w).ret = defaultProvider) ∧
    (∀ conn err, SessionBus = .ok conn →
      ((⟨conn, ⟨ssServiceName, ssServicePath⟩⟩ : SsProvider σ).openSession w).ret = .error err →
      (init SessionBus defaultProvider w).ret = defaultProvider) ∧
    (∀ conn session, SessionBus = .ok conn →
      ((⟨conn, ⟨ssServiceName, ssServicePath⟩⟩ : SsProvider σ).openSession w).ret = .ok session →
      (init SessionBus defaultProvider w).ret = some ⟨conn, ⟨ssServiceName, ssServicePath⟩⟩) ∧
    ((init SessionBus none w).ret.isSome = true ↔
      ∃ conn session, SessionBus = .ok conn ∧
        ((⟨conn, ⟨ssServiceName, ssServicePath⟩⟩ : SsProvider σ).openSession w).ret =
          .ok session) := by
  have key : ∀ (dp : Option (SsProvider σ)) conn, SessionBus = .ok conn →
      ((∃ err, ((⟨conn, ⟨ssServiceName, ssServicePath⟩⟩ : SsProvider σ).openSession w).ret =
          .error err) ∧ (init SessionBus dp w).ret = dp) ∨
      ((∃ session, ((⟨conn, ⟨ssServiceName, ssServicePath⟩⟩ : SsProvider σ).openSession w).ret =
          .ok session) ∧
        (init SessionBus dp w).ret = some ⟨conn, ⟨ssServiceName, ssServicePath⟩⟩) := by
    intro dp conn hc
    subst hc
    rcases h : (⟨conn, ⟨ssServiceName, ssServicePath⟩⟩ : SsProvider σ).openSession w with
      ⟨ret, w1, t1⟩
    cases ret with
    | error err =>
      left
      exact ⟨⟨err, rfl⟩, by simp only [init, h]⟩
    | ok session =>
      right
      exact ⟨⟨session, rfl⟩, by simp only [init, h]⟩
  refine ⟨?_, ?_, ?_, ?_⟩
  · rintro ⟨err, rfl⟩
    rfl
  · intro conn err hc ho
    rcases key defaultProvider conn hc with ⟨_, h⟩ | ⟨⟨session, hs⟩, _⟩
    · exact h
    · rw [ho] at hs
      cases hs
  · intro conn session hc ho
    rcases key defaultProvider conn hc with ⟨⟨err, he⟩, _⟩ | ⟨_, h⟩
    · rw [ho] at he
      cases he
    · exact h
  · constructor
    · intro h
      cases hsb : SessionBus with
      | error err =>
        subst hsb
        simp [init] at h
      | ok conn =>
        rcases key none conn hsb with ⟨_, h'⟩ | ⟨⟨session, hs⟩, _⟩
        · rw [h'] at h
          simp at h
        · exact ⟨conn, session, rfl, hs⟩
    · rintro ⟨conn, session, hc, ho⟩
      rcases key none conn hc with ⟨⟨err, he⟩, _⟩ | ⟨_, h⟩
      · rw [ho] at he
        cases he
      · rw [h]
        rfl

/-- A run of C7: no session bus; a bus on which OpenSession fails; a bus on
which it succeeds. -/
theorem init_registers_iff_witness :
    (init (.error ⟨lit "no bus"⟩) (none : Option (SsProvider Script)) okScript).ret = none ∧
      (init (.ok scripted) none openFailScript).ret = none ∧
      (init (.ok scripted) none okScript).ret = some scriptedProvider :=
  ⟨(init_registers_iff (.error ⟨lit "no bus"⟩) none okScript).1 ⟨_, rfl⟩,
   (init_registers_iff (.ok scripted) none openFailScript).2.1 scripted
      (.lib ⟨lit "no such service"⟩) rfl rfl,
   (init_registers_iff (.ok scripted) none okScript).2.2.1 scripted
      ⟨ssServiceName, lit "/s/1"⟩ rfl rfl⟩

/-! ## C8: the store key of the Credential-Manager backend -/

/-- C8, as stated, fails: the pairs ("a", "b::c") and ("a::b", "c") differ and
compose the same store key, and on the model store a `Set` for the second pair
changes what `Get` returns for the first, from "not found" to the secret just
written. -/
theorem targetName_collision :
    targetName (lit "a") (lit "b::c") = targetName (lit "a::b") (lit "c") ∧
    (lit "a", lit "b::c") ≠ (lit "a::b", lit "c") ∧
    (modelWindowsProvider.Get (lit "a") (lit "b::c") []).1 =
      (lit "", some (.lib ⟨lit "Element not found."⟩)) ∧
    (modelWindowsProvider.Get (lit "a") (lit "b::c")
        (modelWindowsProvider.Set (lit "a::b") (lit "c") (lit "x") []).2).1 =
      (lit "x", none) := by
  decide

/-- The bytes of the store key: the service, two colons, the username. -/
theorem targetName_bytes (Service Username : GoString) :
    (targetName Service Username).bytes = Service.bytes ++ colon :: colon :: Username.bytes := by
  have h : (lit "::").bytes = [colon, colon] := by decide
  show (Service.bytes ++ (lit "::").bytes) ++ Username.bytes = _
  rw [h]
  simp

/-- Two byte strings without a colon that are followed by "::" and further
bytes, with equal results, are equal, and so are the further bytes. -/
theorem separator_splits (s1 s2 u1 u2 : List UInt8) (h1 : colon ∉ s1) (h2 : colon ∉ s2)
    (h : s1 ++ colon :: colon :: u1 = s2 ++ colon :: colon :: u2) : s1 = s2 ∧ u1 = u2 := by
  induction s1 generalizing s2 with
  | nil =>
    cases s2 with
    | nil => simpa using h
    | cons b t =>
      simp only [List.nil_append, List.cons_append, List.cons.injEq] at h
      exact absurd (h.1 ▸ List.mem_cons_self b t) h2
  | cons a t ih =>
    cases s2 with
    | nil =>
      simp only [List.nil_append, List.cons_append, List.cons.injEq] at h
      exact absurd (h.1 ▸ List.mem_cons_self a t) h1
    | cons b t2 =>
      simp only [List.cons_append, List.cons.injEq] at h
      obtain ⟨hab, ht⟩ := h
      have := ih t2 (fun hm => h1 (List.mem_cons_of_mem _ hm))
        (fun hm => h2 (List.mem_cons_of_mem _ hm)) ht
      exact ⟨by rw [hab, this.1], this.2⟩

/-- Dropping the credentials of another target name does not change which
credential is found. -/
theorem find_filter_ne (st : CredStore) (k1 k2 : GoString) (hne : k1 ≠ k2) :
    (st.filter (fun old => old.TargetName ≠ k1)).find? (fun cred => cred.TargetName = k2) =
      st.find? (fun cred => cred.TargetName = k2) := by
  induction st with
  | nil => rfl
  | cons x t ih =>
    by_cases hx : x.TargetName = k1
    · have hx2 : ¬ x.TargetName = k2 := fun h => hne (hx ▸ h)
      rw [List.filter_cons_of_neg (by simpa using hx), List.find?_cons_of_neg _ (by simpa using hx2),
        ih]
    · rw [List.filter_cons_of_pos (by simpa using hx)]
      by_cases hx2 : x.TargetName = k2
      · rw [List.find?_cons_of_pos _ (by simpa using hx2),
          List.find?_cons_of_pos _ (by simpa using hx2)]
      · rw [List.find?_cons_of_neg _ (by simpa using hx2),
          List.find?_cons_of_neg _ (by simpa using hx2), ih]

/-- Writing a credential does not change what is read under another target
name. -/
theorem read_write_ne (st : CredStore) (cred : GenericCredential) (k : GoString)
    (h : cred.TargetName ≠ k) : (st.write cred).read k = st.read k := by
  unfold CredStore.read CredStore.write
  rw [List.find?_cons_of_neg _ (by simpa using h), find_filter_ne st _ _ h]

/-- Reading under the target name just written gives the credential written. -/
theorem read_write_same (st : CredStore) (cred : GenericCredential) :
    (st.write cred).read cred.TargetName = .ok cred := by
  unfold CredStore.read CredStore.write
  rw [List.find?_cons_of_pos _ (by simp)]

/-- The run of `windowsProvider.Get` on the model credential store. -/
theorem model_Get_eq (Service Username : GoString) (st : CredStore) :
    modelWindowsProvider.Get Service Username st =
      ((match st.read (targetName Service Username) with
        | .error err => (lit "", some (.lib err))
        | .ok cred => (GoString.ofBytes cred.CredentialBlob, none)), st) := by
  simp only [windowsProvider.Get, modelWindowsProvider, credManager]
  cases st.read (targetName Service Username) <;> rfl

/-- The run of `windowsProvider.Set` on the model credential store. -/
theorem model_Set_eq (Service Username Password : GoString) (st : CredStore) :
    modelWindowsProvider.Set Service Username Password st =
      (none, st.write ⟨targetName Service Username, Password.toBytes⟩) :=
  rfl

/-- C8, amended: for service names that hold no ':' byte the composed key
`service + "::" + username` is injective: equal keys imply equal services and
equal usernames (the usernames may hold any bytes); consequently, on the model
store, `Set` for one such pair never changes what `Get` returns for a
different such pair. -/
theorem targetName_injective_without_colon :
    (∀ s1 u1 s2 u2 : GoString, colon ∉ s1.bytes → colon ∉ s2.bytes →
      targetName s1 u1 = targetName s2 u2 → s1 = s2 ∧ u1 = u2) ∧
    (∀ (st : CredStore) (s1 u1 pw s2 u2 : GoString), colon ∉ s1.bytes → colon ∉ s2.bytes →
      (s1, u1) ≠ (s2, u2) →
      (modelWindowsProvider.Set s1 u1 pw st).1 = none ∧
      (modelWindowsProvider.Get s2 u2 (modelWindowsProvider.Set s1 u1 pw st).2).1 =
        (modelWindowsProvider.Get s2 u2 st).1) := by
  have inj : ∀ s1 u1 s2 u2 : GoString, colon ∉ s1.bytes → colon ∉ s2.bytes →
      targetName s1 u1 = targetName s2 u2 → s1 = s2 ∧ u1 = u2 := by
    intro s1 u1 s2 u2 h1 h2 h
    have hb := congrArg GoString.bytes h
    rw [targetName_bytes, targetName_bytes] at hb
    obtain ⟨hs, hu⟩ := separator_splits _ _ _ _ h1 h2 hb
    cases s1; cases s2; cases u1; cases u2
    simp only at hs hu
    subst hs hu
    exact ⟨rfl, rfl⟩
  refine ⟨inj, ?_⟩
  intro st s1 u1 pw s2 u2 h1 h2 hne
  have hk : targetName s1 u1 ≠ targetName s2 u2 := by
    intro h
    obtain ⟨hs, hu⟩ := inj s1 u1 s2 u2 h1 h2 h
    exact hne (by rw [hs, hu])
  refine ⟨rfl, ?_⟩
  rw [model_Set_eq, model_Get_eq, model_Get_eq, read_write_ne st _ _ hk]

/-- A run of C8, amended: the pairs ("svc", "a::b") and ("svc", "c") on a
store that already holds a credential for the second. -/
theorem targetName_injective_without_colon_witness :
    (targetName (lit "svc") (lit "a::b") = targetName (lit "svc") (lit "a::b") →
      lit "svc" = lit "svc" ∧ lit "a::b" = lit "a::b") ∧
    (modelWindowsProvider.Set (lit "svc") (lit "a::b") (lit "pw")
        [⟨targetName (lit "svc") (lit "c"), (lit "old").toBytes⟩]).1 = none ∧
    (modelWindowsProvider.Get (lit "svc") (lit "c")
        (modelWindowsProvider.Set (lit "svc") (lit "a::b") (lit "pw")
          [⟨targetName (lit "svc") (lit "c"), (lit "old").toBytes⟩]).2).1 =
      (modelWindowsProvider.Get (lit "svc") (lit "c")
        [⟨targetName (lit "svc") (lit "c"), (lit "old").toBytes⟩]).1 :=
  ⟨targetName_injective_without_colon.1 (lit "svc") (lit "a::b") (lit "svc") (lit "a::b")
      (by decide) (by decide),
   targetName_injective_without_colon.2 [⟨targetName (lit "svc") (lit "c"), (lit "old").toBytes⟩]
      (lit "svc") (lit "a::b") (lit "pw") (lit "svc") (lit "c") (by decide) (by decide)
      (by decide)⟩

/-! ## The providers on the model stores -/

section Model

/-- The properties `Set` hands to CreateItem. -/
theorem attributesOf_Set (c u : GoString) :
    attributesOf
        [(lit "org.freedesktop.Secret.Item.Label", .str (u ++ lit " - " ++ c)),
         (lit "org.freedesktop.Secret.Item.Attributes",
           .dict [(lit "username", u), (lit "service", c)])] =
      [(lit "username", u), (lit "service", c)] := by
  have h : (lit "org.freedesktop.Secret.Item.Attributes" ==
      lit "org.freedesktop.Secret.Item.Label") = false := by decide
  have h' : (lit "org.freedesktop.Secret.Item.Attributes" ==
      lit "org.freedesktop.Secret.Item.Attributes") = true := by decide
  simp only [attributesOf, List.lookup, h, h']

/-- The run of `openSession` on the model service. -/
theorem model_openSession (st : Service) :
    modelProvider.openSession st =
      ⟨.ok ⟨ssServiceName, sessionPath st.sessions⟩, st.openSession.2,
        [.OpenSession ⟨ssServiceName, ssServicePath⟩ (lit "plain") (.str (lit ""))
          (.ok (.str (lit ""), sessionPath st.sessions))]⟩ :=
  rfl

/-- The run of `unlock` on the model service: no prompt is needed, so `unlock`
returns its error for "/". -/
theorem model_unlock (p : ObjectPath) (st : Service) :
    modelProvider.unlock p st =
      ⟨some (.Errorf (lit "keyring/dbus: Unexpected prompt of '/' returned")), st.unlock [p],
        [.Unlock ⟨ssServiceName, ssServicePath⟩ [p] (.ok ([p], lit "/"))]⟩ := by
  simp [SsProvider.unlock, modelProvider, secretService]

/-- The run of the create step on the model service. -/
theorem model_createItem (properties : Properties) (secret : ssSecret) (st : Service) :
    modelProvider.createItem properties secret st =
      ⟨none, (st.createItem properties secret true).2,
        [.CreateItem ⟨ssServiceName, ssCollectionPath⟩ properties secret true
          (.ok ((st.createItem properties secret true).1, lit "/"))]⟩ := by
  simp [SsProvider.createItem, modelProvider, secretService, SsProvider.Object]

/-- The run of the closing call on the model service. -/
theorem model_closeSession (session : Object) (st : Service) :
    modelProvider.closeSession session st =
      ⟨none, st.close session.path, [.Close session none]⟩ :=
  rfl

/-- The run of `Set` on the model service, call by call. -/
theorem model_Set (c u p : GoString) (st : Service) :
    modelProvider.Set c u p st =
      ⟨none,
        (((st.openSession.2.unlock [ssCollectionPath]).createItem
          [(lit "org.freedesktop.Secret.Item.Label", .str (u ++ lit " - " ++ c)),
           (lit "org.freedesktop.Secret.Item.Attributes",
             .dict [(lit "username", u), (lit "service", c)])]
          (newSSSecret (sessionPath st.sessions) p) true).2).close (sessionPath st.sessions),
        [.OpenSession ⟨ssServiceName, ssServicePath⟩ (lit "plain") (.str (lit ""))
            (.ok (.str (lit ""), sessionPath st.sessions)),
         .Unlock ⟨ssServiceName, ssServicePath⟩ [ssCollectionPath]
            (.ok ([ssCollectionPath], lit "/")),
         .CreateItem ⟨ssServiceName, ssCollectionPath⟩
            [(lit "org.freedesktop.Secret.Item.Label", .str (u ++ lit " - " ++ c)),
             (lit "org.freedesktop.Secret.Item.Attributes",
               .dict [(lit "username", u), (lit "service", c)])]
            (newSSSecret (sessionPath st.sessions) p) true
            (.ok (((st.openSession.2.unlock [ssCollectionPath]).createItem
              [(lit "org.freedesktop.Secret.Item.Label", .str (u ++ lit " - " ++ c)),
               (lit "org.freedesktop.Secret.Item.Attributes",
                 .dict [(lit "username", u), (lit "service", c)])]
              (newSSSecret (sessionPath st.sessions) p) true).1, lit "/")),
         .Close ⟨ssServiceName, sessionPath st.sessions⟩ none]⟩ := by
  simp only [SsProvider.Set, model_openSession, model_unlock, model_createItem,
    model_closeSession, Object.Path]
  rfl

/-- The run of the search step on the model service. -/
theorem model_searchItems (search : Attrs) (st : Service) :
    modelProvider.searchItems search st =
      ⟨st.search search, st,
        [.SearchItems ⟨ssServiceName, ssCollectionPath⟩ search (.ok (st.search search))]⟩ :=
  rfl

/-- The run of one fetch on the model service. -/
theorem model_getSecret (r : ObjectPath) (session : Object) (secret : ssSecret) (st : Service) :
    modelProvider.getSecret r session secret st =
      ⟨Store (st.getSecret r session.path) secret, st,
        [.GetSecret ⟨ssServiceName, r⟩ session.path (st.getSecret r session.path),
         .Println (lit "GetSecret") (Store (st.getSecret r session.path) secret)]⟩ :=
  rfl

/-- The run of `Get` on the model service when the search finds an unlocked
item whose secret can be read. -/
theorem model_Get_unlocked (c u : GoString) (st : Service) (r : ObjectPath)
    (rest locked : List ObjectPath) (sec : ssSecret)
    (hsearch : (st.openSession.2.unlock [ssCollectionPath]).search
      [(lit "username", u), (lit "service", c)] = (r :: rest, locked))
    (hsecret : (st.openSession.2.unlock [ssCollectionPath]).getSecret r
      (sessionPath st.sessions) = .ok sec) :
    modelProvider.Get c u st =
      ⟨(GoString.ofBytes sec.Value, none),
        (st.openSession.2.unlock [ssCollectionPath]).close (sessionPath st.sessions),
        [.OpenSession ⟨ssServiceName, ssServicePath⟩ (lit "plain") (.str (lit ""))
            (.ok (.str (lit ""), sessionPath st.sessions)),
         .Unlock ⟨ssServiceName, ssServicePath⟩ [ssCollectionPath]
            (.ok ([ssCollectionPath], lit "/")),
         .SearchItems ⟨ssServiceName, ssCollectionPath⟩
            [(lit "username", u), (lit "service", c)] (.ok (r :: rest, locked)),
         .GetSecret ⟨ssServiceName, r⟩ (sessionPath st.sessions) (.ok sec),
         .Println (lit "GetSecret") sec,
         .Close ⟨ssServiceName, sessionPath st.sessions⟩ none]⟩ := by
  simp only [SsProvider.Get, model_openSession, model_unlock, model_searchItems, hsearch,
    SsProvider.fetch, model_getSecret, hsecret, model_closeSession, Store]
  simp

/-- In a list without two elements of the same key, filtering by the key of a
member leaves that member alone. -/
theorem filter_unique {α β : Type} (f : α → β) (p : α → Bool) (l : List α) (x : α)
    (hn : (l.map f).Nodup) (hx : x ∈ l) (hp : ∀ y ∈ l, p y = true ↔ f y = f x) :
    l.filter p = [x] := by
  induction l with
  | nil => cases hx
  | cons a t ih =>
    rw [List.map_cons, List.nodup_cons] at hn
    rcases List.mem_cons.1 hx with hxa | hxt
    · subst hxa
      have hnil : t.filter p = [] := by
        rw [List.filter_eq_nil_iff]
        intro y hy hpy
        have := (hp y (List.mem_cons_of_mem _ hy)).1 hpy
        exact hn.1 (this ▸ List.mem_map_of_mem f hy)
      rw [List.filter_cons_of_pos ((hp x (List.mem_cons_self _ _)).2 rfl), hnil]
    · have hpa : ¬ p a = true := by
        intro hpa
        have := (hp a (List.mem_cons_self _ _)).1 hpa
        exact hn.1 (this ▸ List.mem_map_of_mem f hxt)
      rw [List.filter_cons_of_neg hpa]
      exact ih hn.2 hxt (fun y hy => hp y (List.mem_cons_of_mem _ hy))

/-- In a list without two elements of the same key, searching by the key of a
member finds that member. -/
theorem find_unique {α β : Type} (f : α → β) (p : α → Bool) (l : List α) (x : α)
    (hn : (l.map f).Nodup) (hx : x ∈ l) (hp : ∀ y ∈ l, p y = true ↔ f y = f x) :
    l.find? p = some x := by
  induction l with
  | nil => cases hx
  | cons a t ih =>
    rw [List.map_cons, List.nodup_cons] at hn
    rcases List.mem_cons.1 hx with hxa | hxt
    · subst hxa
      rw [List.find?_cons_of_pos _ ((hp x (List.mem_cons_self _ _)).2 rfl)]
    · have hpa : ¬ p a = true := by
        intro hpa
        have := (hp a (List.mem_cons_self _ _)).1 hpa
        exact hn.1 (this ▸ List.mem_map_of_mem f hxt)
      rw [List.find?_cons_of_neg _ hpa]
      exact ih hn.2 hxt (fun y hy => hp y (List.mem_cons_of_mem _ hy))

/-- Items with different ids have different paths. -/
theorem itemPath_injective (a b : Nat) (h : itemPath a = itemPath b) : a = b := by
  have hb := congrArg GoString.bytes h
  have hb' : (ssCollectionPath ++ lit "/i").bytes ++ List.replicate a 49 =
      (ssCollectionPath ++ lit "/i").bytes ++ List.replicate b 49 := hb
  have := congrArg List.length (List.append_cancel_left hb')
  simpa using this

/-- The attributes `Set` writes are those of a credential. -/
theorem isCredential_Set (c u : GoString) :
    Service.isCredential [(lit "username", u), (lit "service", c)] = true := by
  simp [Service.isCredential]

/-- Among credential attributes, a search for {username, service} matches
exactly the items with these two values. -/
theorem subsetOf_credential (c u : GoString) (a : Attrs) (ha : Service.isCredential a = true) :
    subsetOf [(lit "username", u), (lit "service", c)] a = true ↔
      a = [(lit "username", u), (lit "service", c)] := by
  have hne : lit "username" ≠ lit "service" := by decide
  match a, ha with
  | [(k1, v1), (k2, v2)], ha =>
    simp only [Service.isCredential, Bool.and_eq_true, decide_eq_true_eq] at ha
    obtain ⟨h1, h2⟩ := ha
    subst h1 h2
    simp only [subsetOf, List.all_cons, List.all_nil, Bool.and_true, Bool.and_eq_true,
      List.contains_cons, List.contains_nil, Bool.or_false, Bool.or_eq_true, beq_iff_eq,
      Prod.mk.injEq, true_and, List.cons.injEq, and_true]
    constructor
    · rintro ⟨h1 | h1, h2 | h2⟩
      · exact absurd h2.1.symm hne
      · exact ⟨h1.symm, h2.symm⟩
      · exact absurd h1.1 hne
      · exact absurd h1.1 hne
    · rintro ⟨h1, h2⟩
      exact ⟨Or.inl h1.symm, Or.inr h2.symm⟩

/-- Among credential attributes, the same pairs means the same list. -/
theorem sameAttrs_credential (c u : GoString) (a : Attrs) (ha : Service.isCredential a = true) :
    sameAttrs [(lit "username", u), (lit "service", c)] a = true ↔
      a = [(lit "username", u), (lit "service", c)] := by
  constructor
  · intro h
    simp only [sameAttrs, Bool.and_eq_true] at h
    exact (subsetOf_credential c u a ha).1 h.1
  · intro h
    subst h
    have := (subsetOf_credential c u _ (isCredential_Set c u)).2 rfl
    simp only [sameAttrs, this, Bool.and_self]

/-- Being well formed depends on the items and on `next` only. -/
theorem wellFormed_congr {st st' : Service} (hi : st'.items = st.items) (hn : st'.next = st.next)
    (hw : st.WellFormed) : st'.WellFormed := by
  unfold Service.WellFormed at hw ⊢
  rw [hi, hn]
  exact hw

/-- The state `Set` and `Get` reach before they create or search: the same
items, none of them newly locked. -/
theorem prepared_frame (st : Service) :
    (st.openSession.2.unlock [ssCollectionPath]).items = st.items ∧
    (st.openSession.2.unlock [ssCollectionPath]).next = st.next ∧
    ∀ id, id ∉ st.locked → id ∉ (st.openSession.2.unlock [ssCollectionPath]).locked := by
  refine ⟨rfl, rfl, ?_⟩
  intro id hid hmem
  exact hid (List.mem_filter.1 hmem).1

/-- CreateItem with the properties of `Set` and replace set keeps the model
service well formed and leaves an unlocked item with the attributes of the
pair holding the new secret. -/
theorem createItem_spec (st : Service) (hw : st.WellFormed) (c u : GoString) (secret : ssSecret) :
    (st.createItem
        [(lit "org.freedesktop.Secret.Item.Label", .str (u ++ lit " - " ++ c)),
         (lit "org.freedesktop.Secret.Item.Attributes",
           .dict [(lit "username", u), (lit "service", c)])] secret true).2.WellFormed ∧
    ∃ it ∈ (st.createItem
        [(lit "org.freedesktop.Secret.Item.Label", .str (u ++ lit " - " ++ c)),
         (lit "org.freedesktop.Secret.Item.Attributes",
           .dict [(lit "username", u), (lit "service", c)])] secret true).2.items,
      it.attributes = [(lit "username", u), (lit "service", c)] ∧
      it.secret = secret.Value ∧ it.contentType = secret.ContentType ∧
      it.id ∉ (st.createItem
        [(lit "org.freedesktop.Secret.Item.Label", .str (u ++ lit " - " ++ c)),
         (lit "org.freedesktop.Secret.Item.Attributes",
           .dict [(lit "username", u), (lit "service", c)])] secret true).2.locked := by
  obtain ⟨hids, hlt, hattrs, hshape⟩ := hw
  unfold Service.createItem
  rw [attributesOf_Set, if_pos rfl]
  cases hfind : st.items.find?
      (fun it => sameAttrs [(lit "username", u), (lit "service", c)] it.attributes) with
  | some old =>
    have hold := List.mem_of_find?_eq_some hfind
    have hsame := List.find?_some hfind
    have hattr := (sameAttrs_credential c u _ (hshape old hold)).1 hsame
    have hmapid : (st.items.map (fun it =>
        if it.id = old.id then
          it.overwrite (labelOf
            [(lit "org.freedesktop.Secret.Item.Label", .str (u ++ lit " - " ++ c)),
             (lit "org.freedesktop.Secret.Item.Attributes",
               .dict [(lit "username", u), (lit "service", c)])]) secret
        else it)).map Item.id = st.items.map Item.id := by
      rw [List.map_map]
      apply List.map_congr_left
      intro it _
      simp only [Function.comp]
      split <;> rfl
    have hmapattr : (st.items.map (fun it =>
        if it.id = old.id then
          it.overwrite (labelOf
            [(lit "org.freedesktop.Secret.Item.Label", .str (u ++ lit " - " ++ c)),
             (lit "org.freedesktop.Secret.Item.Attributes",
               .dict [(lit "username", u), (lit "service", c)])]) secret
        else it)).map Item.attributes = st.items.map Item.attributes := by
      rw [List.map_map]
      apply List.map_congr_left
      intro it _
      simp only [Function.comp]
      split <;> rfl
    refine ⟨⟨?_, ?_, ?_, ?_⟩, ?_⟩
    · simp only
      rw [hmapid]
      exact hids
    · simp only
      intro it hit
      obtain ⟨it0, hit0, rfl⟩ := List.mem_map.1 hit
      have := hlt it0 hit0
      split <;> exact this
    · simp only
      rw [hmapattr]
      exact hattrs
    · simp only
      intro it hit
      obtain ⟨it0, hit0, rfl⟩ := List.mem_map.1 hit
      have := hshape it0 hit0
      split <;> exact this
    · refine ⟨_, List.mem_map.2 ⟨old, hold, rfl⟩, ?_⟩
      simp only [if_pos]
      refine ⟨hattr, rfl, rfl, ?_⟩
      intro hmem
      have := (List.mem_filter.1 hmem).2
      simp at this
      exact this rfl
  | none =>
    have hnone : ∀ it ∈ st.items, it.attributes ≠ [(lit "username", u), (lit "service", c)] := by
      intro it hit heq
      have := List.find?_eq_none.1 hfind it hit
      exact this ((sameAttrs_credential c u _ (hshape it hit)).2 heq)
    refine ⟨⟨?_, ?_, ?_, ?_⟩, ?_⟩
    · simp only [List.map_append, List.map_cons, List.map_nil]
      apply List.Nodup.append hids (List.nodup_singleton _)
      intro id hid hid'
      rw [List.mem_singleton] at hid'
      obtain ⟨it, hit, rfl⟩ := List.mem_map.1 hid
      exact absurd hid' (Nat.ne_of_lt (hlt it hit))
    · simp only
      intro it hit
      rcases List.mem_append.1 hit with hit | hit
      · exact Nat.lt_succ_of_lt (hlt it hit)
      · rw [List.mem_singleton] at hit
        subst hit
        exact Nat.lt_succ_self _
    · simp only [List.map_append, List.map_cons, List.map_nil]
      apply List.Nodup.append hattrs (List.nodup_singleton _)
      intro a ha ha'
      rw [List.mem_singleton] at ha'
      obtain ⟨it, hit, rfl⟩ := List.mem_map.1 ha
      exact hnone it hit ha'
    · simp only
      intro it hit
      rcases List.mem_append.1 hit with hit | hit
      · exact hshape it hit
      · rw [List.mem_singleton] at hit
        subst hit
        exact isCredential_Set c u
    · refine ⟨_, List.mem_append_right _ (List.mem_singleton_self _), rfl, rfl, rfl, ?_⟩
      intro hmem
      have := (List.mem_filter.1 hmem).2
      simp at this

/-- On a well-formed model service holding an unlocked item for the pair, the
search for the pair finds that item and no other. -/
theorem search_spec (st : Service) (hw : st.WellFormed) (c u : GoString) (it : Item)
    (hit : it ∈ st.items) (hattr : it.attributes = [(lit "username", u), (lit "service", c)])
    (hun : it.id ∉ st.locked) :
    st.search [(lit "username", u), (lit "service", c)] = ([itemPath it.id], []) := by
  obtain ⟨hids, hlt, hattrs, hshape⟩ := hw
  have hfound : st.items.filter
      (fun x => subsetOf [(lit "username", u), (lit "service", c)] x.attributes) = [it] := by
    apply filter_unique Item.attributes _ _ _ hattrs hit
    intro y hy
    rw [hattr]
    exact subsetOf_credential c u _ (hshape y hy)
  unfold Service.search
  simp only [hfound]
  have h1 : List.contains st.locked it.id = false := by
    simpa using hun
  simp [List.filter_cons, hun]

/-- On a well-formed model service GetSecret on the path of an unlocked item
delivers its secret. -/
theorem getSecret_spec (st : Service) (hw : st.WellFormed) (it : Item) (hit : it ∈ st.items)
    (hun : it.id ∉ st.locked) (session : ObjectPath) :
    st.getSecret (itemPath it.id) session = .ok ⟨session, [], it.secret, it.contentType⟩ := by
  obtain ⟨hids, hlt, hattrs, hshape⟩ := hw
  have hfind : st.items.find? (fun x => itemPath x.id = itemPath it.id) = some it := by
    apply find_unique Item.id _ _ _ hids hit
    intro y _
    simp only [decide_eq_true_eq]
    exact ⟨itemPath_injective _ _, fun h => by rw [h]⟩
  have h1 : List.contains st.locked it.id = false := by
    simpa using hun
  unfold Service.getSecret
  rw [hfind]
  simp only [h1]
  rfl

/-- Converting a string to bytes and back gives the string. -/
theorem ofBytes_toBytes (p : GoString) : GoString.ofBytes p.toBytes = p := rfl

/-- The run of `Set` on the model service: it succeeds, the service stays well formed, and
an unlocked item with the attributes of the pair holds the secret. -/
theorem model_Set_spec (st : Service) (hw : st.WellFormed) (c u p : GoString) :
    (modelProvider.Set c u p st).ret = none ∧
    (∀ e ∈ (modelProvider.Set c u p st).trace, e.failed = false) ∧
    (modelProvider.Set c u p st).world.WellFormed ∧
    ∃ it ∈ (modelProvider.Set c u p st).world.items,
      it.attributes = [(lit "username", u), (lit "service", c)] ∧
      it.secret = p.toBytes ∧ it.id ∉ (modelProvider.Set c u p st).world.locked := by
  obtain ⟨hi, hn, _⟩ := prepared_frame st
  have hw1 := wellFormed_congr hi hn hw
  obtain ⟨hw2, it, hit, hattr, hsec, _, hun⟩ := createItem_spec _ hw1 c u
    (newSSSecret (sessionPath st.sessions) p)
  rw [model_Set]
  refine ⟨rfl, ?_, wellFormed_congr rfl rfl hw2, it, hit, hattr, hsec, hun⟩
  intro e he
  simp only [List.mem_cons, List.mem_singleton, List.not_mem_nil, or_false] at he
  rcases he with he | he | he | he <;> subst he <;> rfl

/-- The run of `Get` on the model service holding an unlocked item for the pair: it
returns the secret of that item, every call succeeds, the items are left as
they were. -/
theorem model_Get_spec (st : Service) (hw : st.WellFormed) (c u : GoString) (it : Item)
    (hit : it ∈ st.items) (hattr : it.attributes = [(lit "username", u), (lit "service", c)])
    (hun : it.id ∉ st.locked) :
    (modelProvider.Get c u st).ret = (GoString.ofBytes it.secret, none) ∧
    (∀ e ∈ (modelProvider.Get c u st).trace, e.failed = false) ∧
    (modelProvider.Get c u st).world.items = st.items ∧
    (modelProvider.Get c u st).world.next = st.next := by
  obtain ⟨hi, hn, hl⟩ := prepared_frame st
  have hw1 := wellFormed_congr hi hn hw
  have hit1 : it ∈ (st.openSession.2.unlock [ssCollectionPath]).items := by rw [hi]; exact hit
  have hs := search_spec _ hw1 c u it hit1 hattr (hl _ hun)
  have hg := getSecret_spec _ hw1 it hit1 (hl _ hun) (sessionPath st.sessions)
  rw [model_Get_unlocked c u st _ _ _ _ hs hg]
  refine ⟨rfl, ?_, rfl, rfl⟩
  intro e he
  simp only [List.mem_cons, List.mem_singleton, List.not_mem_nil, or_false] at he
  rcases he with he | he | he | he | he | he <;> subst he <;> rfl

/-- The empty model service is well formed. -/
theorem wellFormed_empty : Service.empty.WellFormed := by
  decide

/-- The run of `Get` on the model service leaves the items as they were, so a
well-formed service stays well formed. -/
theorem model_Get_wellFormed (st : Service) (hw : st.WellFormed) (c u : GoString) :
    (modelProvider.Get c u st).world.WellFormed := by
  have key : (modelProvider.Get c u st).world.items = st.items ∧
      (modelProvider.Get c u st).world.next = st.next := by
    simp only [SsProvider.Get, model_openSession, model_unlock, model_searchItems]
    split
    · exact ⟨rfl, rfl⟩
    · simp only [SsProvider.fetch, model_getSecret, model_unlock, model_closeSession]
      split
      · split <;> exact ⟨rfl, rfl⟩
      · split <;> exact ⟨rfl, rfl⟩
  exact wellFormed_congr key.1 key.2 hw

/-- After a write exactly one credential has the target name written. -/
theorem model_write_count (st : CredStore) (cred : GenericCredential) :
    ((st.write cred).filter (fun x => x.TargetName = cred.TargetName)).length = 1 := by
  unfold CredStore.write
  rw [List.filter_cons_of_pos (by simp)]
  have : (st.filter (fun old => old.TargetName ≠ cred.TargetName)).filter
      (fun x => x.TargetName = cred.TargetName) = [] := by
    rw [List.filter_eq_nil_iff]
    intro a ha
    have := (List.mem_filter.1 ha).2
    simpa using this
  rw [this]
  rfl

end Model

/-! ## C1: round trip -/

/-- C1: on the Secret-Service backend run against the model service, from any
well-formed state, and on the Credential-Manager backend run against the model
credential store, from any state: for every service, username and secret
(empty or not), `Set(service, username, secret)` returns nil, and
`Get(service, username)` run next returns exactly `secret` with a nil error;
no remote call of the two operations fails. -/
theorem round_trip :
    (∀ (st : Service) (c u p : GoString), st.WellFormed →
      (modelProvider.Set c u p st).ret = none ∧
      (modelProvider.Get c u (modelProvider.Set c u p st).world).ret = (p, none) ∧
      (∀ e ∈ (modelProvider.Set c u p st).trace ++
          (modelProvider.Get c u (modelProvider.Set c u p st).world).trace,
        e.failed = false)) ∧
    (∀ (st : CredStore) (c u p : GoString),
      (modelWindowsProvider.Set c u p st).1 = none ∧
      (modelWindowsProvider.Get c u (modelWindowsProvider.Set c u p st).2).1 = (p, none)) := by
  constructor
  · intro st c u p hw
    obtain ⟨hret, hok, hw', it, hit, hattr, hsec, hun⟩ := model_Set_spec st hw c u p
    obtain ⟨hget, hok', _, _⟩ := model_Get_spec _ hw' c u it hit hattr hun
    refine ⟨hret, ?_, ?_⟩
    · rw [hget, hsec, ofBytes_toBytes]
    · intro e he
      rcases List.mem_append.1 he with he | he
      · exact hok e he
      · exact hok' e he
  · intro st c u p
    refine ⟨rfl, ?_⟩
    rw [model_Set_eq, model_Get_eq]
    have := read_write_same st ⟨targetName c u, p.toBytes⟩
    simp only at this
    rw [this]
    rfl

/-- A run of C1: the model service holding a locked item for the pair, and
the empty credential store. -/
theorem round_trip_witness :
    ((modelProvider.Set (lit "svc") (lit "me") (lit "pw") lockedService).ret = none ∧
      (modelProvider.Get (lit "svc") (lit "me")
        (modelProvider.Set (lit "svc") (lit "me") (lit "pw") lockedService).world).ret =
          (lit "pw", none) ∧
      (∀ e ∈ (modelProvider.Set (lit "svc") (lit "me") (lit "pw") lockedService).trace ++
          (modelProvider.Get (lit "svc") (lit "me")
            (modelProvider.Set (lit "svc") (lit "me") (lit "pw") lockedService).world).trace,
        e.failed = false)) ∧
    ((modelWindowsProvider.Set (lit "svc") (lit "me") (lit "pw") []).1 = none ∧
      (modelWindowsProvider.Get (lit "svc") (lit "me")
        (modelWindowsProvider.Set (lit "svc") (lit "me") (lit "pw") []).2).1 =
          (lit "pw", none)) :=
  ⟨round_trip.1 lockedService (lit "svc") (lit "me") (lit "pw") (by decide),
   round_trip.2 [] (lit "svc") (lit "me") (lit "pw")⟩

/-! ## C2: upsert -/

/-- C2: for every service, username and secrets `s1`, `s2`: on the model
service, from any well-formed state, after `Set(service, username, s1)` and
then `Set(service, username, s2)` exactly one item matches a search for
{username, service}, and `Get(service, username)` returns `s2`; each of the
two `Set` calls issued a CreateItem with the attributes {username, service}
and the replace flag true, and on any connection every CreateItem call `Set`
issues has these attributes and the replace flag true. On the model credential
store, from any state, after the two `Set` calls exactly one credential has
the key of the pair and `Get` returns `s2`. -/
theorem upsert :
    (∀ (st : Service) (c u s1 s2 : GoString), st.WellFormed →
      (modelProvider.Set c u s2 (modelProvider.Set c u s1 st).world).ret = none ∧
      ((modelProvider.Set c u s2 (modelProvider.Set c u s1 st).world).world.items.filter
        (fun it => subsetOf [(lit "username", u), (lit "service", c)] it.attributes)).length = 1 ∧
      (modelProvider.Get c u
        (modelProvider.Set c u s2 (modelProvider.Set c u s1 st).world).world).ret = (s2, none) ∧
      (∃ sp reply, Event.CreateItem ⟨ssServiceName, ssCollectionPath⟩
          [(lit "org.freedesktop.Secret.Item.Label", .str (u ++ lit " - " ++ c)),
           (lit "org.freedesktop.Secret.Item.Attributes",
             .dict [(lit "username", u), (lit "service", c)])]
          (newSSSecret sp s1) true reply ∈ (modelProvider.Set c u s1 st).trace) ∧
      (∃ sp reply, Event.CreateItem ⟨ssServiceName, ssCollectionPath⟩
          [(lit "org.freedesktop.Secret.Item.Label", .str (u ++ lit " - " ++ c)),
           (lit "org.freedesktop.Secret.Item.Attributes",
             .dict [(lit "username", u), (lit "service", c)])]
          (newSSSecret sp s2) true reply ∈
            (modelProvider.Set c u s2 (modelProvider.Set c u s1 st).world).trace)) ∧
    (∀ (σ : Type) (s : SsProvider σ) (c u p : GoString) (w : σ),
      ∀ e ∈ (s.Set c u p w).trace, e.kind = .CreateItem →
        ∃ sp reply, e = Event.CreateItem ⟨ssServiceName, ssCollectionPath⟩
          [(lit "org.freedesktop.Secret.Item.Label", .str (u ++ lit " - " ++ c)),
           (lit "org.freedesktop.Secret.Item.Attributes",
             .dict [(lit "username", u), (lit "service", c)])]
          (newSSSecret sp p) true reply) ∧
    (∀ (st : CredStore) (c u s1 s2 : GoString),
      (modelWindowsProvider.Set c u s2 (modelWindowsProvider.Set c u s1 st).2).1 = none ∧
      ((modelWindowsProvider.Set c u s2 (modelWindowsProvider.Set c u s1 st).2).2.filter
        (fun cred => cred.TargetName = targetName c u)).length = 1 ∧
      (modelWindowsProvider.Get c u
        (modelWindowsProvider.Set c u s2 (modelWindowsProvider.Set c u s1 st).2).2).1 =
          (s2, none)) := by
  refine ⟨?_, ?_, ?_⟩
  · intro st c u s1 s2 hw
    obtain ⟨_, _, hw1, _⟩ := model_Set_spec st hw c u s1
    obtain ⟨hret, _, hw2, it, hit, hattr, hsec, hun⟩ := model_Set_spec _ hw1 c u s2
    obtain ⟨hget, _, _, _⟩ := model_Get_spec _ hw2 c u it hit hattr hun
    refine ⟨hret, ?_, ?_, ?_, ?_⟩
    · have hfound := filter_unique Item.attributes
        (fun x => subsetOf [(lit "username", u), (lit "service", c)] x.attributes) _ it hw2.2.2.1
        hit (by
          intro y hy
          rw [hattr]
          exact subsetOf_credential c u _ (hw2.2.2.2 y hy))
      rw [hfound]
      rfl
    · rw [hget, hsec, ofBytes_toBytes]
    · rw [model_Set]
      exact ⟨_, _, List.mem_cons_of_mem _ (List.mem_cons_of_mem _ (List.mem_cons_self _ _))⟩
    · rw [model_Set c u s2]
      exact ⟨_, _, List.mem_cons_of_mem _ (List.mem_cons_of_mem _ (List.mem_cons_self _ _))⟩
  · intro σ s c u p w e he hk
    rcases Set_anatomy s c u p w with ⟨err, ht, _⟩ |
      ⟨d, sp, r0, rest0, hrest0, ⟨err, ht, _⟩ | ⟨item, prompt, pt, cerr, hp1, hp2, ht, _⟩⟩
    · rw [ht] at he
      simp only [List.mem_singleton] at he
      subst he
      cases hk
    · rw [ht] at he
      simp only [List.mem_cons, List.mem_append, List.mem_singleton, List.not_mem_nil,
        or_false] at he
      rcases he with (he | he | he) | he
      · subst he; cases hk
      · subst he; cases hk
      · rw [hrest0 e he] at hk; cases hk
      · exact ⟨sp, _, he⟩
    · rw [ht] at he
      simp only [List.mem_cons, List.mem_append, List.mem_singleton, List.not_mem_nil,
        or_false] at he
      rcases he with (((he | he | he) | he) | he) | he
      · subst he; cases hk
      · subst he; cases hk
      · rw [hrest0 e he] at hk; cases hk
      · exact ⟨sp, _, he⟩
      · by_cases hn : prompt = lit "/"
        · rw [hp1 hn] at he
          cases he
        · obtain ⟨perr, hpt⟩ := hp2 hn
          rw [hpt, List.mem_singleton] at he
          subst he
          cases hk
      · subst he
        cases hk
  · intro st c u s1 s2
    refine ⟨rfl, ?_, ?_⟩
    · rw [model_Set_eq c u s2]
      exact model_write_count _ ⟨targetName c u, s2.toBytes⟩
    · rw [model_Set_eq c u s2, model_Get_eq]
      have := read_write_same (modelWindowsProvider.Set c u s1 st).2 ⟨targetName c u, s2.toBytes⟩
      simp only at this
      rw [this]
      rfl

/-- A run of C2: two `Set` calls for ("svc", "me") on the model service
holding a locked item for the pair. -/
theorem upsert_witness :
    (modelProvider.Set (lit "svc") (lit "me") (lit "two")
      (modelProvider.Set (lit "svc") (lit "me") (lit "one") lockedService).world).ret = none ∧
    ((modelProvider.Set (lit "svc") (lit "me") (lit "two")
      (modelProvider.Set (lit "svc") (lit "me") (lit "one") lockedService).world).world.items.filter
        (fun it => subsetOf [(lit "username", lit "me"), (lit "service", lit "svc")]
          it.attributes)).length = 1 ∧
    (modelProvider.Get (lit "svc") (lit "me")
      (modelProvider.Set (lit "svc") (lit "me") (lit "two")
        (modelProvider.Set (lit "svc") (lit "me") (lit "one") lockedService).world).world).ret =
          (lit "two", none) :=
  have h := upsert.1 lockedService (lit "svc") (lit "me") (lit "one") (lit "two") (by decide)
  ⟨h.1, h.2.1, h.2.2.1⟩

end Keyring
